import Mathlib

/-!
Shallow embedding of the no-IO Matrix client state machine
(`matrix_sdk_base/src/client.rs`).  Pure data is translated directly;
the `async` methods of `BaseClient` become state-passing functions, and
the observable side channels (subscriber callbacks, `StateStore` writes)
are collected in an explicit effect list.  The `Room` aggregate and the
`OlmMachine` live in crates whose sources are not part of this
repository snapshot; they are kept as parameters (`RoomModel`,
`OlmModel`) whose operation signatures follow the spec, so every
theorem below holds for an arbitrary implementation of those
interfaces.
-/

set_option autoImplicit false

namespace MatrixSdkBase

abbrev RoomId := String
abbrev UserId := String
abbrev Token := String

/-- A session: user id, device id and access token (`session.rs`). -/
structure Session where
  user_id : UserId
  device_id : String
  access_token : String
deriving DecidableEq

/-- Timeline (`RoomEvent`) variants.  The ten variants carrying a
subscriber callback in `emit_timeline_event` are listed explicitly;
`room_encrypted` and `other` fall into the dispatcher's catch-all arm.
The payload is kept as an opaque `Nat`. -/
inductive RoomEvent
  | room_member (d : Nat)
  | room_name (d : Nat)
  | room_canonical_alias (d : Nat)
  | room_aliases (d : Nat)
  | room_avatar (d : Nat)
  | room_message (d : Nat)
  | room_message_feedback (d : Nat)
  | room_redaction (d : Nat)
  | room_power_levels (d : Nat)
  | room_tombstone (d : Nat)
  | room_encrypted (d : Nat)
  | other (d : Nat)
deriving DecidableEq

/-- Which timeline variants get a subscriber callback in
`emit_timeline_event` (the source match lists exactly these ten;
everything else hits the empty catch-all arm). -/
def timeline_has_callback : RoomEvent → Bool
  | .room_member _ => true
  | .room_name _ => true
  | .room_canonical_alias _ => true
  | .room_aliases _ => true
  | .room_avatar _ => true
  | .room_message _ => true
  | .room_message_feedback _ => true
  | .room_redaction _ => true
  | .room_power_levels _ => true
  | .room_tombstone _ => true
  | .room_encrypted _ => false
  | .other _ => false

/-- Full state-event variants, after `emit_state_event`'s match. -/
inductive StateEvent
  | room_member (d : Nat)
  | room_name (d : Nat)
  | room_canonical_alias (d : Nat)
  | room_aliases (d : Nat)
  | room_avatar (d : Nat)
  | room_power_levels (d : Nat)
  | room_join_rules (d : Nat)
  | room_tombstone (d : Nat)
  | other (d : Nat)
deriving DecidableEq

def state_has_callback : StateEvent → Bool
  | .other _ => false
  | _ => true

/-- Stripped state events for invite previews, after
`emit_stripped_state_event`'s match. -/
inductive AnyStrippedStateEvent
  | room_member (d : Nat)
  | room_name (d : Nat)
  | room_canonical_alias (d : Nat)
  | room_aliases (d : Nat)
  | room_avatar (d : Nat)
  | room_power_levels (d : Nat)
  | room_join_rules (d : Nat)
  | other (d : Nat)
deriving DecidableEq

def stripped_has_callback : AnyStrippedStateEvent → Bool
  | .other _ => false
  | _ => true

structure PresenceEvent where
  d : Nat
deriving DecidableEq

/-- The global push ruleset, kept opaque. -/
structure Ruleset where
  d : Nat
deriving DecidableEq

/-- Account-data / ephemeral (`NonRoomEvent`) variants, after the
matches of `receive_account_data_event` and `emit_account_data_event`. -/
inductive NonRoomEvent
  | ignored_user_list (users : List UserId)
  | presence (p : PresenceEvent)
  | push_rules (r : Ruleset)
  | fully_read (d : Nat)
  | other (d : Nat)
deriving DecidableEq

def non_room_has_callback : NonRoomEvent → Bool
  | .other _ => false
  | _ => true

/-- `EventJson T`: raw event JSON which either deserializes to a `T` or
fails to parse (`bad`); the `Nat` distinguishes unparseable blobs. -/
inductive EventJson (T : Type)
  | ok (a : T)
  | bad (d : Nat)
deriving DecidableEq

def EventJson.deserialize {T : Type} : EventJson T → Option T
  | .ok a => some a
  | .bad _ => none

abbrev RoomSummary := Nat
abbrev UnreadNotifications := Nat

/-- `rooms.join` entry of a sync response. -/
structure JoinedRoomData where
  state : List (EventJson StateEvent)
  timeline : List (EventJson RoomEvent)
  ephemeral : List (EventJson NonRoomEvent)
  account_data : Option (List (EventJson NonRoomEvent))
  summary : RoomSummary
  unread_notifications : UnreadNotifications
deriving DecidableEq

/-- `rooms.invite` entry of a sync response. -/
structure InvitedRoomData where
  invite_state : List (EventJson AnyStrippedStateEvent)
deriving DecidableEq

/-- `rooms.leave` entry of a sync response. -/
structure LeftRoomData where
  state : List (EventJson StateEvent)
  timeline : List (EventJson RoomEvent)
deriving DecidableEq

structure Rooms where
  join : List (RoomId × JoinedRoomData)
  invite : List (RoomId × InvitedRoomData)
  leave : List (RoomId × LeftRoomData)
deriving DecidableEq

/-- The parts of a `GET /sync` response the client folds. -/
structure SyncResponse where
  next_batch : Token
  rooms : Rooms
  presence : List (EventJson PresenceEvent)
deriving DecidableEq

/-- `RoomStateType`: which bucket an event's room currently sits in. -/
inductive RoomStateType
  | Joined
  | Left
  | Invited
deriving DecidableEq

/-- One subscriber callback actually performed by an `emit_*` method. -/
inductive Emit
  | timeline (rid : RoomId) (e : RoomEvent) (s : RoomStateType)
  | state (rid : RoomId) (e : StateEvent) (s : RoomStateType)
  | stripped_state (rid : RoomId) (e : AnyStrippedStateEvent) (s : RoomStateType)
  | account_data (rid : RoomId) (e : NonRoomEvent) (s : RoomStateType)
  | ephemeral (rid : RoomId) (e : NonRoomEvent) (s : RoomStateType)
  | presence (rid : RoomId) (e : PresenceEvent) (s : RoomStateType)
deriving DecidableEq

/-- The client state persisted by `store_client_state`
(`ClientState::from_base_client`). -/
structure ClientState where
  sync_token : Option Token
  ignored_users : List UserId
  push_ruleset : Option Ruleset
deriving DecidableEq

/-- One `StateStore` write performed during a fold. -/
inductive StoreWrite (R : Type)
  | room_state (s : RoomStateType) (rid : RoomId) (room : R)
  | client_state (cs : ClientState)
deriving DecidableEq

/-- Observable side effect of a client operation: a subscriber callback
or a `StateStore` write, in program order. -/
inductive Effect (R : Type)
  | emit (e : Emit)
  | write (w : StoreWrite R)
deriving DecidableEq

/-- Association list standing in for the `HashMap<RoomId, _>` buckets. -/
abbrev AList (T : Type) := List (RoomId × T)

def AList.lookup {T : Type} (rid : RoomId) : AList T → Option T
  | [] => none
  | (k, v) :: rest => if k = rid then some v else AList.lookup rid rest

def AList.remove {T : Type} (rid : RoomId) : AList T → AList T
  | [] => []
  | (k, v) :: rest =>
    if k = rid then AList.remove rid rest else (k, v) :: AList.remove rid rest

/-- Replace the value stored at `rid` (no-op when absent); models a
write through the shared room handle obtained from the bucket. -/
def AList.set {T : Type} (rid : RoomId) (v : T) : AList T → AList T
  | [] => []
  | (k, w) :: rest =>
    if k = rid then (k, v) :: rest else (k, w) :: AList.set rid v rest

/-- `entry(rid).or_insert(v)`: return the entry, inserting `v` first
when the key is absent. -/
def AList.insert_if_absent {T : Type} (m : AList T) (rid : RoomId) (v : T) :
    AList T × T :=
  match AList.lookup rid m with
  | some r => (m, r)
  | none => (m ++ [(rid, v)], v)

/-- Modelled from the spec: the per-room aggregate (`models::Room`,
whose source is not part of this snapshot).  Only the operation
signatures of spec section 4.1 are needed: each `receive_*` applies one
event and reports whether observable room state changed. -/
structure RoomModel (R : Type) where
  new : RoomId → UserId → R
  receive_state_event : R → StateEvent → R × Bool
  receive_stripped_state_event : R → AnyStrippedStateEvent → R × Bool
  receive_timeline_event : R → RoomEvent → R × Bool
  receive_presence_event : R → PresenceEvent → R × Bool
  set_room_summary : R → RoomSummary → R
  set_unread_notice_count : R → UnreadNotifications → R
  is_encrypted : R → Bool
  members : R → List UserId

/-- Modelled from the spec: the `CryptoEngine` (`OlmMachine`, from the
`matrix_sdk_crypto` crate, not part of this snapshot), narrowed to the
operations the sync fold uses: consuming a sync response, decrypting a
room event (given its room id and encrypted payload), and refreshing
tracked users. -/
structure OlmModel (O : Type) where
  receive_sync_response : O → SyncResponse → O
  decrypt_room_event : O → RoomId → Nat → O × Option (EventJson RoomEvent)
  update_tracked_users : O → List UserId → O

/-- `AllRooms` as returned by `StateStore::load_all_rooms`. -/
structure AllRooms (R : Type) where
  joined : AList R
  invited : AList R
  left : AList R

/-- The loading half of the `StateStore` interface; writes are recorded
as `Effect.write` entries instead. -/
structure StateStore (R : Type) where
  load_client_state : Session → Option ClientState
  load_all_rooms : AllRooms R

/-- The `BaseClient`.  Locks guard shared state in the source; here the
guarded values appear directly.  `event_emitter` records whether a
subscriber is installed. -/
structure BaseClient (R O : Type) where
  session : Option Session
  sync_token : Option Token
  joined_rooms : AList R
  invited_rooms : AList R
  left_rooms : AList R
  ignored_users : List UserId
  push_ruleset : Option Ruleset
  event_emitter : Bool
  state_store : Option (StateStore R)
  needs_state_store_sync : Bool
  olm : Option O

section Ops

variable {R O : Type} (RM : RoomModel R) (CM : OlmModel O)

/-- `BaseClient::new_helper` with no store: fresh client. -/
def new_client (session : Option Session) (store : Option (StateStore R))
    (olm : Option O) : BaseClient R O :=
  { session := session
    sync_token := none
    joined_rooms := []
    invited_rooms := []
    left_rooms := []
    ignored_users := []
    push_ruleset := none
    event_emitter := false
    state_store := store
    needs_state_store_sync := true
    olm := olm }

/-- The user id used for `Room::new`; the source calls
`.expect("Receiving events while not being logged in")` here, i.e.
panics when no session is present.  The panic is modelled by a default
empty user id, which no claim observes. -/
def current_user_id {R O : Type} (c : BaseClient R O) : UserId :=
  (c.session.map Session.user_id).getD ""

/-- `get_or_create_joined_room`: evicts the id from the invited and
left buckets, then returns the joined entry, creating it if absent. -/
def get_or_create_joined_room (c : BaseClient R O) (rid : RoomId) :
    BaseClient R O × R :=
  let t := AList.insert_if_absent c.joined_rooms rid
    (RM.new rid (current_user_id c))
  ({ c with invited_rooms := AList.remove rid c.invited_rooms,
            left_rooms := AList.remove rid c.left_rooms,
            joined_rooms := t.1 }, t.2)

/-- `get_or_create_invited_room`: the source removes the id from the
left bucket only ("since a join -> invite action per spec can't
happen"), then returns the invited entry, creating it if absent. -/
def get_or_create_invited_room (c : BaseClient R O) (rid : RoomId) :
    BaseClient R O × R :=
  let t := AList.insert_if_absent c.invited_rooms rid
    (RM.new rid (current_user_id c))
  ({ c with left_rooms := AList.remove rid c.left_rooms,
            invited_rooms := t.1 }, t.2)

/-- `get_or_create_left_room`: evicts the id from the invited and
joined buckets, then returns the left entry, creating it if absent. -/
def get_or_create_left_room (c : BaseClient R O) (rid : RoomId) :
    BaseClient R O × R :=
  let t := AList.insert_if_absent c.left_rooms rid
    (RM.new rid (current_user_id c))
  ({ c with invited_rooms := AList.remove rid c.invited_rooms,
            joined_rooms := AList.remove rid c.joined_rooms,
            left_rooms := t.1 }, t.2)

/-- `handle_ignored_users`: element-wise comparison of the cached list
against the event's list; only a genuine change updates the cache. -/
def handle_ignored_users (c : BaseClient R O) (users : List UserId) :
    BaseClient R O × Bool :=
  if c.ignored_users = users then (c, false)
  else ({ c with ignored_users := users }, true)

/-- `handle_push_rules`: replaces the ruleset wholesale and always
reports a change (the structural comparison in the source is commented
out). -/
def handle_push_rules (c : BaseClient R O) (r : Ruleset) :
    BaseClient R O × Bool :=
  ({ c with push_ruleset := some r }, true)

/-- `receive_joined_state_event`. -/
def receive_joined_state_event (c : BaseClient R O) (rid : RoomId)
    (e : StateEvent) : BaseClient R O × Bool :=
  let t := get_or_create_joined_room RM c rid
  let t2 := RM.receive_state_event t.2 e
  ({ t.1 with joined_rooms := AList.set rid t2.1 t.1.joined_rooms }, t2.2)

/-- `receive_invite_state_event`. -/
def receive_invite_state_event (c : BaseClient R O) (rid : RoomId)
    (e : AnyStrippedStateEvent) : BaseClient R O × Bool :=
  let t := get_or_create_invited_room RM c rid
  let t2 := RM.receive_stripped_state_event t.2 e
  ({ t.1 with invited_rooms := AList.set rid t2.1 t.1.invited_rooms }, t2.2)

/-- `receive_left_state_event`. -/
def receive_left_state_event (c : BaseClient R O) (rid : RoomId)
    (e : StateEvent) : BaseClient R O × Bool :=
  let t := get_or_create_left_room RM c rid
  let t2 := RM.receive_state_event t.2 e
  ({ t.1 with left_rooms := AList.set rid t2.1 t.1.left_rooms }, t2.2)

/-- Result of `receive_joined_timeline_event`: the updated client, the
successfully decrypted event (or `none`), and the room-changed flag. -/
structure TimelineStep (R O : Type) where
  client : BaseClient R O
  decrypted : Option (EventJson RoomEvent)
  changed : Bool

/-- The `#[cfg(feature = "encryption")]` block of
`receive_joined_timeline_event`: for an `m.room.encrypted` event with
an engine in place, attempt decryption (possibly advancing engine
state); all other events pass through untouched. -/
def decrypt_step (c : BaseClient R O) (rid : RoomId) :
    RoomEvent → BaseClient R O × Option (EventJson RoomEvent)
  | .room_encrypted d =>
    match c.olm with
    | some o =>
      ({ c with olm := some (CM.decrypt_room_event o rid d).1 },
        (CM.decrypt_room_event o rid d).2)
    | none => (c, none)
  | _ => (c, none)

/-- `receive_joined_timeline_event`: on parse failure returns
`(none, false)`; otherwise attempts decryption through the engine for
`m.room.encrypted` events, then applies the (original) event to the
joined room. -/
def receive_joined_timeline_event (c : BaseClient R O) (rid : RoomId)
    (ej : EventJson RoomEvent) : TimelineStep R O :=
  match ej.deserialize with
  | none => ⟨c, none, false⟩
  | some e =>
    let s := decrypt_step CM c rid e
    let t := get_or_create_joined_room RM s.1 rid
    let t2 := RM.receive_timeline_event t.2 e
    ⟨{ t.1 with joined_rooms := AList.set rid t2.1 t.1.joined_rooms },
      s.2, t2.2⟩

/-- `receive_left_timeline_event`. -/
def receive_left_timeline_event (c : BaseClient R O) (rid : RoomId)
    (ej : EventJson RoomEvent) : BaseClient R O × Bool :=
  match ej.deserialize with
  | none => (c, false)
  | some e =>
    let t := get_or_create_left_room RM c rid
    let t2 := RM.receive_timeline_event t.2 e
    ({ t.1 with left_rooms := AList.set rid t2.1 t.1.left_rooms }, t2.2)

/-- `receive_presence_event`: applied only when the room is currently a
joined room. -/
def receive_presence_event (c : BaseClient R O) (rid : RoomId)
    (p : PresenceEvent) : BaseClient R O × Bool :=
  match AList.lookup rid c.joined_rooms with
  | some room =>
    ({ c with joined_rooms :=
        AList.set rid (RM.receive_presence_event room p).1 c.joined_rooms },
      (RM.receive_presence_event room p).2)
  | none => (c, false)

/-- `receive_account_data_event`. -/
def receive_account_data_event (c : BaseClient R O) (rid : RoomId) :
    NonRoomEvent → BaseClient R O × Bool
  | .ignored_user_list users => handle_ignored_users c users
  | .presence p => receive_presence_event RM c rid p
  | .push_rules r => handle_push_rules c r
  | _ => (c, false)

/-- `receive_ephemeral_event` (identical body to the account-data
receiver in the source). -/
def receive_ephemeral_event (c : BaseClient R O) (rid : RoomId) :
    NonRoomEvent → BaseClient R O × Bool
  | .ignored_user_list users => handle_ignored_users c users
  | .presence p => receive_presence_event RM c rid p
  | .push_rules r => handle_push_rules c r
  | _ => (c, false)

/-- The bucket consulted by the `emit_*` dispatchers for the given
`RoomStateType`. -/
def bucket_lookup (c : BaseClient R O) : RoomStateType → RoomId → Option R
  | .Joined, rid => AList.lookup rid c.joined_rooms
  | .Invited, rid => AList.lookup rid c.invited_rooms
  | .Left, rid => AList.lookup rid c.left_rooms

/-- `emit_timeline_event`: a callback fires only when an emitter is
installed, the room is found in the bucket named by `s`, and the event
variant has a dispatch arm. -/
def emit_timeline_event (c : BaseClient R O) (rid : RoomId) (e : RoomEvent)
    (s : RoomStateType) : List (Effect R) :=
  if c.event_emitter then
    match bucket_lookup c s rid with
    | some _ =>
      if timeline_has_callback e then [.emit (.timeline rid e s)] else []
    | none => []
  else []

/-- `emit_state_event`. -/
def emit_state_event (c : BaseClient R O) (rid : RoomId) (e : StateEvent)
    (s : RoomStateType) : List (Effect R) :=
  if c.event_emitter then
    match bucket_lookup c s rid with
    | some _ =>
      if state_has_callback e then [.emit (.state rid e s)] else []
    | none => []
  else []

/-- `emit_stripped_state_event`. -/
def emit_stripped_state_event (c : BaseClient R O) (rid : RoomId)
    (e : AnyStrippedStateEvent) (s : RoomStateType) : List (Effect R) :=
  if c.event_emitter then
    match bucket_lookup c s rid with
    | some _ =>
      if stripped_has_callback e then [.emit (.stripped_state rid e s)] else []
    | none => []
  else []

/-- `emit_account_data_event`. -/
def emit_account_data_event (c : BaseClient R O) (rid : RoomId)
    (e : NonRoomEvent) (s : RoomStateType) : List (Effect R) :=
  if c.event_emitter then
    match bucket_lookup c s rid with
    | some _ =>
      if non_room_has_callback e then [.emit (.account_data rid e s)] else []
    | none => []
  else []

/-- `emit_ephemeral_event` (same callback set as account data). -/
def emit_ephemeral_event (c : BaseClient R O) (rid : RoomId)
    (e : NonRoomEvent) (s : RoomStateType) : List (Effect R) :=
  if c.event_emitter then
    match bucket_lookup c s rid with
    | some _ =>
      if non_room_has_callback e then [.emit (.ephemeral rid e s)] else []
    | none => []
  else []

/-- `emit_presence_event`: every presence event has a callback. -/
def emit_presence_event (c : BaseClient R O) (rid : RoomId)
    (e : PresenceEvent) (s : RoomStateType) : List (Effect R) :=
  if c.event_emitter then
    match bucket_lookup c s rid with
    | some _ => [.emit (.presence rid e s)]
    | none => []
  else []

/-- Result of a receive-and-emit sub-fold. -/
structure FoldRes (R O : Type) where
  client : BaseClient R O
  updated : Bool
  effects : List (Effect R)

/-- Result of the joined-room timeline loop: the (possibly
decrypted-substituted) timeline is returned, because the source
mutates `response.rooms.join[..].timeline.events` in place. -/
structure TLRes (R O : Type) where
  client : BaseClient R O
  timeline : List (EventJson RoomEvent)
  updated : Bool
  effects : List (Effect R)

/-- Result of processing one joined room. -/
structure RoomRes (R O : Type) where
  client : BaseClient R O
  room : JoinedRoomData
  updated : Bool
  effects : List (Effect R)

/-- Result of a per-bucket iterator. -/
structure IterRes (R O : Type) where
  client : BaseClient R O
  response : SyncResponse
  updated : Bool
  effects : List (Effect R)

/-- Result of `receive_sync_response`. -/
structure SyncRes (R O : Type) where
  client : BaseClient R O
  response : SyncResponse
  effects : List (Effect R)

/-- First loop of `iter_joined_rooms` over a room's `state.events`:
apply every parseable state event, accumulating the `updated` flag. -/
def fold_joined_state (c : BaseClient R O) (rid : RoomId) (u : Bool) :
    List (EventJson StateEvent) → BaseClient R O × Bool
  | [] => (c, u)
  | ej :: rest =>
    match ej.deserialize with
    | some e =>
      let t := receive_joined_state_event RM c rid e
      fold_joined_state t.1 rid (u || t.2) rest
    | none => fold_joined_state c rid u rest

/-- The re-loop over `state.events` that emits each parseable state
event (client state does not change while emitting). -/
def emit_state_events (c : BaseClient R O) (rid : RoomId)
    (s : RoomStateType) : List (EventJson StateEvent) → List (Effect R)
  | [] => []
  | ej :: rest =>
    (match ej.deserialize with
     | some e => emit_state_event c rid e s
     | none => []) ++ emit_state_events c rid s rest

/-- The joined-room timeline loop: receive (with decryption attempt),
substitute the decrypted event into the timeline when available, then
emit the (possibly decrypted) event if it deserializes. -/
def process_timeline (c : BaseClient R O) (rid : RoomId) (u : Bool) :
    List (EventJson RoomEvent) → TLRes R O
  | [] => ⟨c, [], u, []⟩
  | ej :: rest =>
    let t := receive_joined_timeline_event RM CM c rid ej
    let u2 := u || t.changed
    let ej2 := t.decrypted.getD ej
    let em :=
      match ej2.deserialize with
      | some e => emit_timeline_event t.client rid e .Joined
      | none => []
    let r := process_timeline t.client rid u2 rest
    ⟨r.client, ej2 :: r.timeline, r.updated, em ++ r.effects⟩

/-- The joined-room `account_data.events` loop. -/
def fold_account_data (c : BaseClient R O) (rid : RoomId) (u : Bool) :
    List (EventJson NonRoomEvent) → FoldRes R O
  | [] => ⟨c, u, []⟩
  | ej :: rest =>
    match ej.deserialize with
    | some e =>
      let t := receive_account_data_event RM c rid e
      let em := emit_account_data_event t.1 rid e .Joined
      let r := fold_account_data t.1 rid (u || t.2) rest
      ⟨r.client, r.updated, em ++ r.effects⟩
    | none => fold_account_data c rid u rest

/-- The per-joined-room loop over the response's top-level presence
events. -/
def fold_presence (c : BaseClient R O) (rid : RoomId) (u : Bool) :
    List (EventJson PresenceEvent) → FoldRes R O
  | [] => ⟨c, u, []⟩
  | ej :: rest =>
    match ej.deserialize with
    | some e =>
      let t := receive_presence_event RM c rid e
      let em := emit_presence_event t.1 rid e .Joined
      let r := fold_presence t.1 rid (u || t.2) rest
      ⟨r.client, r.updated, em ++ r.effects⟩
    | none => fold_presence c rid u rest

/-- The joined-room `ephemeral.events` loop. -/
def fold_ephemeral (c : BaseClient R O) (rid : RoomId) (u : Bool) :
    List (EventJson NonRoomEvent) → FoldRes R O
  | [] => ⟨c, u, []⟩
  | ej :: rest =>
    match ej.deserialize with
    | some e =>
      let t := receive_ephemeral_event RM c rid e
      let em := emit_ephemeral_event t.1 rid e .Joined
      let r := fold_ephemeral t.1 rid (u || t.2) rest
      ⟨r.client, r.updated, em ++ r.effects⟩
    | none => fold_ephemeral c rid u rest

/-- The `#[cfg(feature = "encryption")]` block of `iter_joined_rooms`:
when the (already created) room is encrypted, pass its member list to
the engine's `update_tracked_users`. -/
def tracked_users_step (c : BaseClient R O) (room : R) : BaseClient R O :=
  match c.olm with
  | some o =>
    if RM.is_encrypted room then
      { c with olm := some (CM.update_tracked_users o (RM.members room)) }
    else c
  | none => c

/-- The middle of the joined-room body: create the room (evicting it
from the other buckets), refresh tracked users, then perform the two
writes `set_room_summary` and `set_unread_notice_count` through the
shared room handle. -/
def joined_room_prelude (c : BaseClient R O) (rid : RoomId)
    (jr : JoinedRoomData) : BaseClient R O :=
  let t := get_or_create_joined_room RM c rid
  let c3 := tracked_users_step RM CM t.1 t.2
  let room1 := RM.set_room_summary t.2 jr.summary
  let room2 := RM.set_unread_notice_count room1 jr.unread_notifications
  let m2 := AList.set rid room2 (AList.set rid room1 c3.joined_rooms)
  { c3 with joined_rooms := m2 }

/-- The `account_data` section of a joined room, when present
(`if let Some(account_data) = &joined_room.account_data`). -/
def account_step (c : BaseClient R O) (rid : RoomId) (u : Bool) :
    Option (List (EventJson NonRoomEvent)) → FoldRes R O
  | some evs => fold_account_data RM c rid u evs
  | none => ⟨c, u, []⟩

/-- The per-room `store_room_state` call at the bottom of the joined
loop: write the room when any update happened so far and a store is
configured. -/
def joined_room_write (c : BaseClient R O) (rid : RoomId) (u : Bool) :
    List (Effect R) :=
  if u then
    match c.state_store with
    | some _ =>
      match AList.lookup rid c.joined_rooms with
      | some r => [Effect.write (StoreWrite.room_state .Joined rid r)]
      | none => []
    | none => []
  else []

/-- The body of `iter_joined_rooms` for one `(room_id, joined_room)`
entry, with `u` the `updated` accumulator shared across rooms and
`pres` the response's top-level presence events. -/
def process_joined_room (c : BaseClient R O) (u : Bool) (rid : RoomId)
    (jr : JoinedRoomData) (pres : List (EventJson PresenceEvent)) :
    RoomRes R O :=
  let t1 := fold_joined_state RM c rid u jr.state
  let c5 := joined_room_prelude RM CM t1.1 rid jr
  let em1 := emit_state_events c5 rid .Joined jr.state
  let tr := process_timeline RM CM c5 rid t1.2 jr.timeline
  let ar := account_step RM tr.client rid tr.updated jr.account_data
  let pr := fold_presence RM ar.client rid ar.updated pres
  let er := fold_ephemeral RM pr.client rid pr.updated jr.ephemeral
  let ws := joined_room_write er.client rid er.updated
  ⟨er.client, { jr with timeline := tr.timeline }, er.updated,
    em1 ++ tr.effects ++ ar.effects ++ pr.effects ++ er.effects ++ ws⟩

/-- Result of the loop over `response.rooms.join`. -/
structure JoinRes (R O : Type) where
  client : BaseClient R O
  join : List (RoomId × JoinedRoomData)
  updated : Bool
  effects : List (Effect R)

/-- The loop of `iter_joined_rooms` over `response.rooms.join`,
threading the shared `updated` accumulator and rebuilding the
(possibly decrypted-substituted) join section. -/
def iter_joined_rooms_aux (c : BaseClient R O) (u : Bool)
    (pres : List (EventJson PresenceEvent)) :
    List (RoomId × JoinedRoomData) → JoinRes R O
  | [] => ⟨c, [], u, []⟩
  | (rid, jr) :: rest =>
    let r := process_joined_room RM CM c u rid jr pres
    let rr := iter_joined_rooms_aux r.client r.updated pres rest
    ⟨rr.client, (rid, r.room) :: rr.join, rr.updated, r.effects ++ rr.effects⟩

/-- `iter_joined_rooms`. -/
def iter_joined_rooms (c : BaseClient R O) (resp : SyncResponse) :
    IterRes R O :=
  let j := iter_joined_rooms_aux RM CM c false resp.presence resp.rooms.join
  ⟨j.client, { resp with rooms := { resp.rooms with join := j.join } },
    j.updated, j.effects⟩

/-- The invite-state receive loop of `iter_invited_rooms`. -/
def fold_invite_state (c : BaseClient R O) (rid : RoomId) (u : Bool) :
    List (EventJson AnyStrippedStateEvent) → BaseClient R O × Bool
  | [] => (c, u)
  | ej :: rest =>
    match ej.deserialize with
    | some e =>
      let t := receive_invite_state_event RM c rid e
      fold_invite_state t.1 rid (u || t.2) rest
    | none => fold_invite_state c rid u rest

/-- The re-loop over `invite_state.events` that emits each parseable
stripped state event. -/
def emit_stripped_events (c : BaseClient R O) (rid : RoomId) :
    List (EventJson AnyStrippedStateEvent) → List (Effect R)
  | [] => []
  | ej :: rest =>
    (match ej.deserialize with
     | some e => emit_stripped_state_event c rid e .Invited
     | none => []) ++ emit_stripped_events c rid rest

/-- The per-room `store_room_state` call at the bottom of the invited
loop. -/
def invited_room_write (c : BaseClient R O) (rid : RoomId) (u : Bool) :
    List (Effect R) :=
  if u then
    match c.state_store with
    | some _ =>
      match AList.lookup rid c.invited_rooms with
      | some r => [Effect.write (StoreWrite.room_state .Invited rid r)]
      | none => []
    | none => []
  else []

/-- The body of `iter_invited_rooms` for one entry. -/
def process_invited_room (c : BaseClient R O) (u : Bool) (rid : RoomId)
    (ir : InvitedRoomData) : FoldRes R O :=
  let t1 := fold_invite_state RM c rid u ir.invite_state
  let t2 := get_or_create_invited_room RM t1.1 rid
  let em := emit_stripped_events t2.1 rid ir.invite_state
  let ws := invited_room_write t2.1 rid t1.2
  ⟨t2.1, t1.2, em ++ ws⟩

/-- The loop of `iter_invited_rooms` over `response.rooms.invite`. -/
def iter_invited_rooms_aux (c : BaseClient R O) (u : Bool) :
    List (RoomId × InvitedRoomData) → FoldRes R O
  | [] => ⟨c, u, []⟩
  | (rid, ir) :: rest =>
    let r := process_invited_room RM c u rid ir
    let rr := iter_invited_rooms_aux r.client r.updated rest
    ⟨rr.client, rr.updated, r.effects ++ rr.effects⟩

/-- `iter_invited_rooms` (takes the response immutably). -/
def iter_invited_rooms (c : BaseClient R O) (resp : SyncResponse) :
    FoldRes R O :=
  iter_invited_rooms_aux RM c false resp.rooms.invite

/-- The left-state receive loop of `iter_left_rooms`. -/
def fold_left_state (c : BaseClient R O) (rid : RoomId) (u : Bool) :
    List (EventJson StateEvent) → BaseClient R O × Bool
  | [] => (c, u)
  | ej :: rest =>
    match ej.deserialize with
    | some e =>
      let t := receive_left_state_event RM c rid e
      fold_left_state t.1 rid (u || t.2) rest
    | none => fold_left_state c rid u rest

/-- The left-room timeline loop (no decryption, no substitution). -/
def fold_left_timeline (c : BaseClient R O) (rid : RoomId) (u : Bool) :
    List (EventJson RoomEvent) → FoldRes R O
  | [] => ⟨c, u, []⟩
  | ej :: rest =>
    let t := receive_left_timeline_event RM c rid ej
    let em :=
      match ej.deserialize with
      | some e => emit_timeline_event t.1 rid e .Left
      | none => []
    let r := fold_left_timeline t.1 rid (u || t.2) rest
    ⟨r.client, r.updated, em ++ r.effects⟩

/-- The per-room `store_room_state` call at the bottom of the left
loop. -/
def left_room_write (c : BaseClient R O) (rid : RoomId) (u : Bool) :
    List (Effect R) :=
  if u then
    match c.state_store with
    | some _ =>
      match AList.lookup rid c.left_rooms with
      | some r => [Effect.write (StoreWrite.room_state .Left rid r)]
      | none => []
    | none => []
  else []

/-- The body of `iter_left_rooms` for one entry. -/
def process_left_room (c : BaseClient R O) (u : Bool) (rid : RoomId)
    (lr : LeftRoomData) : FoldRes R O :=
  let t1 := fold_left_state RM c rid u lr.state
  let t2 := get_or_create_left_room RM t1.1 rid
  let em1 := emit_state_events t2.1 rid .Left lr.state
  let tr := fold_left_timeline RM t2.1 rid t1.2 lr.timeline
  let ws := left_room_write tr.client rid tr.updated
  ⟨tr.client, tr.updated, em1 ++ tr.effects ++ ws⟩

/-- The loop of `iter_left_rooms` over `response.rooms.leave`. -/
def iter_left_rooms_aux (c : BaseClient R O) (u : Bool) :
    List (RoomId × LeftRoomData) → FoldRes R O
  | [] => ⟨c, u, []⟩
  | (rid, lr) :: rest =>
    let r := process_left_room RM c u rid lr
    let rr := iter_left_rooms_aux r.client r.updated rest
    ⟨rr.client, rr.updated, r.effects ++ rr.effects⟩

/-- `iter_left_rooms` (mutates nothing observable in the response). -/
def iter_left_rooms (c : BaseClient R O) (resp : SyncResponse) :
    FoldRes R O :=
  iter_left_rooms_aux RM c false resp.rooms.leave

/-- The crypto hand-off at the top of `receive_sync_response`: the
engine (when present) consumes the response before per-room folding,
so decryption keys for room events are at hand. -/
def crypto_handoff (c : BaseClient R O) (resp : SyncResponse) :
    BaseClient R O :=
  match c.olm with
  | some o => { c with olm := some (CM.receive_sync_response o resp) }
  | none => c

/-- `receive_sync_response`: idempotence check, sync-token overwrite,
crypto hand-off, the three per-bucket folds, and the final
`store_client_state` persist. -/
def receive_sync_response (c : BaseClient R O) (resp : SyncResponse) :
    SyncRes R O :=
  if c.sync_token = some resp.next_batch then ⟨c, resp, []⟩
  else
    let c2 := crypto_handoff CM
      { c with sync_token := some resp.next_batch } resp
    let j := iter_joined_rooms RM CM c2 resp
    let iv := iter_invited_rooms RM j.client j.response
    let l := iter_left_rooms RM iv.client j.response
    let ws :=
      match l.client.state_store with
      | some _ =>
        [Effect.write (StoreWrite.client_state
          ⟨l.client.sync_token, l.client.ignored_users, l.client.push_ruleset⟩)]
      | none => []
    ⟨l.client, j.response, j.effects ++ iv.effects ++ l.effects ++ ws⟩

/-- `sync_with_state_store`: loads client state and all rooms from the
configured store.  The final result is `!needs_state_store_sync`, with
the flag cleared only after a successful load. -/
def sync_with_state_store (c : BaseClient R O) : BaseClient R O × Bool :=
  match c.state_store with
  | none => (c, !c.needs_state_store_sync)
  | some store =>
    match c.session with
    | none => (c, !c.needs_state_store_sync)
    | some sess =>
      match store.load_client_state sess with
      | none => (c, false)
      | some cs =>
        let rooms := store.load_all_rooms
        let c2 :=
          { c with sync_token := cs.sync_token,
                   ignored_users := cs.ignored_users,
                   push_ruleset := cs.push_ruleset,
                   joined_rooms := rooms.joined,
                   invited_rooms := rooms.invited,
                   left_rooms := rooms.left,
                   needs_state_store_sync := false }
        (c2, !c2.needs_state_store_sync)

/-- The control fields of the client that the sync folds never touch:
session, sync token, emitter slot, store slot and the needs-sync flag. -/
structure Ctl (R : Type) where
  session : Option Session
  sync_token : Option Token
  event_emitter : Bool
  state_store : Option (StateStore R)
  needs_state_store_sync : Bool

/-- Project the control fields out of a client. -/
def ctl (c : BaseClient R O) : Ctl R :=
  ⟨c.session, c.sync_token, c.event_emitter, c.state_store,
    c.needs_state_store_sync⟩

end Ops

section Preds

variable {R : Type}

/-- Is this effect a subscriber callback? -/
def Effect.is_emit : Effect R → Bool
  | .emit _ => true
  | .write _ => false

/-- Is this effect a `StateStore` write (of either kind)? -/
def is_store_write : Effect R → Bool
  | .write _ => true
  | .emit _ => false

/-- Is this effect a `store_client_state` write? -/
def is_client_state_write : Effect R → Bool
  | .write (.client_state _) => true
  | _ => false

/-- Is this effect a presence callback? -/
def is_presence_emit : Effect R → Bool
  | .emit (.presence _ _ _) => true
  | _ => false

/-- Is this effect a timeline callback? -/
def is_timeline_emit : Effect R → Bool
  | .emit (.timeline _ _ _) => true
  | _ => false

end Preds

section Concrete

/-- A room model whose rooms carry no data and never report changes;
used to exercise the client algebra on concrete inputs. -/
def TrivialRM : RoomModel Unit :=
  ⟨fun _ _ => (), fun r _ => (r, false), fun r _ => (r, false),
    fun r _ => (r, false), fun r _ => (r, false), fun r _ => r,
    fun r _ => r, fun _ => false, fun _ => []⟩

/-- A room model in which every full state event changes the room. -/
def ChangeRM : RoomModel Unit :=
  ⟨fun _ _ => (), fun r _ => (r, true), fun r _ => (r, false),
    fun r _ => (r, false), fun r _ => (r, false), fun r _ => r,
    fun r _ => r, fun _ => false, fun _ => []⟩

/-- An engine that never manages to decrypt anything. -/
def TrivialCM : OlmModel Unit :=
  ⟨fun o _ => o, fun o _ _ => (o, none), fun o _ => o⟩

/-- An engine that decrypts every encrypted payload `d` to a parseable
`m.room.message` event with the same payload. -/
def DecryptCM : OlmModel Unit :=
  ⟨fun o _ => o, fun o _ d => (o, some (.ok (.room_message d))), fun o _ => o⟩

/-- A joined-room section with no events. -/
def emptyJR : JoinedRoomData := ⟨[], [], [], none, 0, 0⟩

def sess0 : Session := ⟨"@u:s", "d", "t"⟩

/-- A store holding nothing. -/
def stEmpty : StateStore Unit := ⟨fun _ => none, ⟨[], [], []⟩⟩

/-- A store that yields client state for every session. -/
def stLoaded : StateStore Unit :=
  ⟨fun _ => some ⟨some "tok", ["@i:s"], some ⟨1⟩⟩, ⟨[("!j:s", ())], [], []⟩⟩

def c1_base : BaseClient Unit Unit := new_client (some sess0) none none

def c1_resp1 : SyncResponse := ⟨"t1", ⟨[("!r:s", emptyJR)], [], []⟩, []⟩

def c1_resp2 : SyncResponse := ⟨"t2", ⟨[], [("!r:s", ⟨[]⟩)], []⟩, []⟩

def c2_client : BaseClient Unit Unit :=
  { new_client (some sess0) none none with sync_token := some "t1" }

def c2_resp : SyncResponse := ⟨"t1", ⟨[], [], []⟩, []⟩

def c3_client : BaseClient Unit Unit :=
  new_client (some sess0) (some stEmpty) none

def c3_resp : SyncResponse := ⟨"t1", ⟨[], [], []⟩, []⟩

def c4_client : BaseClient Unit Unit :=
  { new_client (some sess0) none none with ignored_users := ["@a:s"] }

def c5_client : BaseClient Unit Unit :=
  { new_client (some sess0) none none with push_ruleset := some ⟨3⟩ }

def c7_client : BaseClient Unit Unit :=
  { new_client (some sess0) none (some ()) with event_emitter := true }

def c7_resp : SyncResponse :=
  ⟨"t1", ⟨[("!r:s", { emptyJR with timeline := [.ok (.room_encrypted 7)] })],
    [], []⟩, []⟩

def c8_client : BaseClient Unit Unit := new_client none (some stLoaded) none

def c8w_client : BaseClient Unit Unit :=
  new_client (some sess0) (some stLoaded) none

def c9_client : BaseClient Unit Unit :=
  { new_client (some sess0) none none with event_emitter := true }

def c10_client : BaseClient Unit Unit :=
  new_client (some sess0) (some stEmpty) none

def c10_jr1 : JoinedRoomData := { emptyJR with state := [.ok (.other 0)] }

end Concrete

section Lemmas

variable {R O : Type} (RM : RoomModel R) (CM : OlmModel O)

theorem AList.lookup_remove_self {T : Type} (rid : RoomId) (m : AList T) :
    AList.lookup rid (AList.remove rid m) = none := by
  induction m with
  | nil => rfl
  | cons kv rest ih =>
    obtain ⟨k, v⟩ := kv
    by_cases h : k = rid
    · simpa [AList.remove, h] using ih
    · simpa [AList.remove, AList.lookup, h] using ih

theorem AList.lookup_append {T : Type} (rid : RoomId) (m1 m2 : AList T) :
    AList.lookup rid (m1 ++ m2) =
      match AList.lookup rid m1 with
      | some v => some v
      | none => AList.lookup rid m2 := by
  induction m1 with
  | nil => rfl
  | cons kv rest ih =>
    obtain ⟨k, v⟩ := kv
    by_cases h : k = rid <;> simp [AList.lookup, h, ih]

theorem AList.lookup_set_isSome {T : Type} (rid : RoomId) (v : T)
    (m : AList T) :
    (AList.lookup rid (AList.set rid v m)).isSome
      = (AList.lookup rid m).isSome := by
  induction m with
  | nil => rfl
  | cons kv rest ih =>
    obtain ⟨k, w⟩ := kv
    by_cases h : k = rid <;> simp [AList.set, AList.lookup, h, ih]

theorem AList.lookup_insert_isSome {T : Type} (m : AList T) (rid : RoomId)
    (v : T) :
    (AList.lookup rid (AList.insert_if_absent m rid v).1).isSome = true := by
  unfold AList.insert_if_absent
  rcases h : AList.lookup rid m with _ | r
  · simp [AList.lookup_append, AList.lookup, h]
  · simp [h]

theorem lookup_get_or_create_joined (c : BaseClient R O) (rid : RoomId) :
    (AList.lookup rid
      (get_or_create_joined_room RM c rid).1.joined_rooms).isSome = true := by
  simpa [get_or_create_joined_room] using
    AList.lookup_insert_isSome c.joined_rooms rid (RM.new rid (current_user_id c))

theorem lookup_get_or_create_invited (c : BaseClient R O) (rid : RoomId) :
    (AList.lookup rid
      (get_or_create_invited_room RM c rid).1.invited_rooms).isSome = true := by
  simpa [get_or_create_invited_room] using
    AList.lookup_insert_isSome c.invited_rooms rid
      (RM.new rid (current_user_id c))

theorem lookup_get_or_create_left (c : BaseClient R O) (rid : RoomId) :
    (AList.lookup rid
      (get_or_create_left_room RM c rid).1.left_rooms).isSome = true := by
  simpa [get_or_create_left_room] using
    AList.lookup_insert_isSome c.left_rooms rid
      (RM.new rid (current_user_id c))

theorem ctl_get_or_create_joined (c : BaseClient R O) (rid : RoomId) :
    ctl (get_or_create_joined_room RM c rid).1 = ctl c := rfl

theorem ctl_get_or_create_invited (c : BaseClient R O) (rid : RoomId) :
    ctl (get_or_create_invited_room RM c rid).1 = ctl c := rfl

theorem ctl_get_or_create_left (c : BaseClient R O) (rid : RoomId) :
    ctl (get_or_create_left_room RM c rid).1 = ctl c := rfl

theorem ctl_handle_ignored_users (c : BaseClient R O) (users : List UserId) :
    ctl (handle_ignored_users c users).1 = ctl c := by
  unfold handle_ignored_users
  split <;> rfl

theorem ctl_handle_push_rules (c : BaseClient R O) (r : Ruleset) :
    ctl (handle_push_rules c r).1 = ctl c := rfl

theorem ctl_decrypt_step (c : BaseClient R O) (rid : RoomId) (e : RoomEvent) :
    ctl (decrypt_step CM c rid e).1 = ctl c := by
  cases e <;> try rfl
  case room_encrypted d =>
    rcases h : c.olm with _ | o <;> simp [decrypt_step, h, ctl]

theorem ctl_receive_joined_state_event (c : BaseClient R O) (rid : RoomId)
    (e : StateEvent) :
    ctl (receive_joined_state_event RM c rid e).1 = ctl c := rfl

theorem ctl_receive_invite_state_event (c : BaseClient R O) (rid : RoomId)
    (e : AnyStrippedStateEvent) :
    ctl (receive_invite_state_event RM c rid e).1 = ctl c := rfl

theorem ctl_receive_left_state_event (c : BaseClient R O) (rid : RoomId)
    (e : StateEvent) :
    ctl (receive_left_state_event RM c rid e).1 = ctl c := rfl

theorem ctl_receive_joined_timeline_event (c : BaseClient R O) (rid : RoomId)
    (ej : EventJson RoomEvent) :
    ctl (receive_joined_timeline_event RM CM c rid ej).client = ctl c := by
  cases ej with
  | bad d => rfl
  | ok e => exact ctl_decrypt_step CM c rid e

theorem ctl_receive_left_timeline_event (c : BaseClient R O) (rid : RoomId)
    (ej : EventJson RoomEvent) :
    ctl (receive_left_timeline_event RM c rid ej).1 = ctl c := by
  cases ej <;> rfl

theorem ctl_receive_presence_event (c : BaseClient R O) (rid : RoomId)
    (p : PresenceEvent) :
    ctl (receive_presence_event RM c rid p).1 = ctl c := by
  unfold receive_presence_event
  rcases h : AList.lookup rid c.joined_rooms with _ | room <;> simp [h, ctl]

theorem ctl_receive_account_data_event (c : BaseClient R O) (rid : RoomId)
    (e : NonRoomEvent) :
    ctl (receive_account_data_event RM c rid e).1 = ctl c := by
  cases e with
  | ignored_user_list users => exact ctl_handle_ignored_users c users
  | presence p => exact ctl_receive_presence_event RM c rid p
  | push_rules r => rfl
  | fully_read d => rfl
  | other d => rfl

theorem ctl_receive_ephemeral_event (c : BaseClient R O) (rid : RoomId)
    (e : NonRoomEvent) :
    ctl (receive_ephemeral_event RM c rid e).1 = ctl c := by
  cases e with
  | ignored_user_list users => exact ctl_handle_ignored_users c users
  | presence p => exact ctl_receive_presence_event RM c rid p
  | push_rules r => rfl
  | fully_read d => rfl
  | other d => rfl

theorem ctl_tracked_users_step (c : BaseClient R O) (room : R) :
    ctl (tracked_users_step RM CM c room) = ctl c := by
  unfold tracked_users_step
  rcases h : c.olm with _ | o
  · rfl
  · by_cases he : RM.is_encrypted room <;> simp [he, ctl]

theorem ctl_joined_room_prelude (c : BaseClient R O) (rid : RoomId)
    (jr : JoinedRoomData) :
    ctl (joined_room_prelude RM CM c rid jr) = ctl c := by
  unfold joined_room_prelude
  exact ctl_tracked_users_step RM CM _ _

theorem ctl_fold_joined_state (c : BaseClient R O) (rid : RoomId) (u : Bool)
    (l : List (EventJson StateEvent)) :
    ctl (fold_joined_state RM c rid u l).1 = ctl c := by
  induction l generalizing c u with
  | nil => rfl
  | cons ej rest ih =>
    cases ej with
    | bad d => exact ih c u
    | ok e => exact (ih _ _).trans (ctl_receive_joined_state_event RM c rid e)

theorem ctl_process_timeline (c : BaseClient R O) (rid : RoomId) (u : Bool)
    (l : List (EventJson RoomEvent)) :
    ctl (process_timeline RM CM c rid u l).client = ctl c := by
  induction l generalizing c u with
  | nil => rfl
  | cons ej rest ih =>
    exact (ih _ _).trans (ctl_receive_joined_timeline_event RM CM c rid ej)

theorem ctl_fold_account_data (c : BaseClient R O) (rid : RoomId) (u : Bool)
    (l : List (EventJson NonRoomEvent)) :
    ctl (fold_account_data RM c rid u l).client = ctl c := by
  induction l generalizing c u with
  | nil => rfl
  | cons ej rest ih =>
    cases ej with
    | bad d => exact ih c u
    | ok e => exact (ih _ _).trans (ctl_receive_account_data_event RM c rid e)

theorem ctl_account_step (c : BaseClient R O) (rid : RoomId) (u : Bool)
    (o : Option (List (EventJson NonRoomEvent))) :
    ctl (account_step RM c rid u o).client = ctl c := by
  cases o with
  | none => rfl
  | some evs => exact ctl_fold_account_data RM c rid u evs

theorem ctl_fold_presence (c : BaseClient R O) (rid : RoomId) (u : Bool)
    (l : List (EventJson PresenceEvent)) :
    ctl (fold_presence RM c rid u l).client = ctl c := by
  induction l generalizing c u with
  | nil => rfl
  | cons ej rest ih =>
    cases ej with
    | bad d => exact ih c u
    | ok e => exact (ih _ _).trans (ctl_receive_presence_event RM c rid e)

theorem ctl_fold_ephemeral (c : BaseClient R O) (rid : RoomId) (u : Bool)
    (l : List (EventJson NonRoomEvent)) :
    ctl (fold_ephemeral RM c rid u l).client = ctl c := by
  induction l generalizing c u with
  | nil => rfl
  | cons ej rest ih =>
    cases ej with
    | bad d => exact ih c u
    | ok e => exact (ih _ _).trans (ctl_receive_ephemeral_event RM c rid e)

theorem ctl_process_joined_room (c : BaseClient R O) (u : Bool)
    (rid : RoomId) (jr : JoinedRoomData)
    (pres : List (EventJson PresenceEvent)) :
    ctl (process_joined_room RM CM c u rid jr pres).client = ctl c := by
  show ctl (fold_ephemeral RM _ rid _ jr.ephemeral).client = ctl c
  rw [ctl_fold_ephemeral, ctl_fold_presence, ctl_account_step,
    ctl_process_timeline, ctl_joined_room_prelude, ctl_fold_joined_state]

theorem ctl_iter_joined_rooms_aux (c : BaseClient R O) (u : Bool)
    (pres : List (EventJson PresenceEvent))
    (l : List (RoomId × JoinedRoomData)) :
    ctl (iter_joined_rooms_aux RM CM c u pres l).client = ctl c := by
  induction l generalizing c u with
  | nil => rfl
  | cons rj rest ih =>
    obtain ⟨rid, jr⟩ := rj
    exact (ih _ _).trans (ctl_process_joined_room RM CM c u rid jr pres)

theorem ctl_iter_joined_rooms (c : BaseClient R O) (resp : SyncResponse) :
    ctl (iter_joined_rooms RM CM c resp).client = ctl c :=
  ctl_iter_joined_rooms_aux RM CM c false resp.presence resp.rooms.join

theorem ctl_fold_invite_state (c : BaseClient R O) (rid : RoomId) (u : Bool)
    (l : List (EventJson AnyStrippedStateEvent)) :
    ctl (fold_invite_state RM c rid u l).1 = ctl c := by
  induction l generalizing c u with
  | nil => rfl
  | cons ej rest ih =>
    cases ej with
    | bad d => exact ih c u
    | ok e => exact (ih _ _).trans (ctl_receive_invite_state_event RM c rid e)

theorem ctl_process_invited_room (c : BaseClient R O) (u : Bool)
    (rid : RoomId) (ir : InvitedRoomData) :
    ctl (process_invited_room RM c u rid ir).client = ctl c := by
  show ctl (get_or_create_invited_room RM _ rid).1 = ctl c
  rw [ctl_get_or_create_invited, ctl_fold_invite_state]

theorem ctl_iter_invited_rooms_aux (c : BaseClient R O) (u : Bool)
    (l : List (RoomId × InvitedRoomData)) :
    ctl (iter_invited_rooms_aux RM c u l).client = ctl c := by
  induction l generalizing c u with
  | nil => rfl
  | cons ri rest ih =>
    obtain ⟨rid, ir⟩ := ri
    exact (ih _ _).trans (ctl_process_invited_room RM c u rid ir)

theorem ctl_iter_invited_rooms (c : BaseClient R O) (resp : SyncResponse) :
    ctl (iter_invited_rooms RM c resp).client = ctl c :=
  ctl_iter_invited_rooms_aux RM c false resp.rooms.invite

theorem ctl_fold_left_state (c : BaseClient R O) (rid : RoomId) (u : Bool)
    (l : List (EventJson StateEvent)) :
    ctl (fold_left_state RM c rid u l).1 = ctl c := by
  induction l generalizing c u with
  | nil => rfl
  | cons ej rest ih =>
    cases ej with
    | bad d => exact ih c u
    | ok e => exact (ih _ _).trans (ctl_receive_left_state_event RM c rid e)

theorem ctl_fold_left_timeline (c : BaseClient R O) (rid : RoomId) (u : Bool)
    (l : List (EventJson RoomEvent)) :
    ctl (fold_left_timeline RM c rid u l).client = ctl c := by
  induction l generalizing c u with
  | nil => rfl
  | cons ej rest ih =>
    exact (ih _ _).trans (ctl_receive_left_timeline_event RM c rid ej)

theorem ctl_process_left_room (c : BaseClient R O) (u : Bool) (rid : RoomId)
    (lr : LeftRoomData) :
    ctl (process_left_room RM c u rid lr).client = ctl c := by
  show ctl (fold_left_timeline RM _ rid _ lr.timeline).client = ctl c
  rw [ctl_fold_left_timeline, ctl_get_or_create_left, ctl_fold_left_state]

theorem ctl_iter_left_rooms_aux (c : BaseClient R O) (u : Bool)
    (l : List (RoomId × LeftRoomData)) :
    ctl (iter_left_rooms_aux RM c u l).client = ctl c := by
  induction l generalizing c u with
  | nil => rfl
  | cons rl rest ih =>
    obtain ⟨rid, lr⟩ := rl
    exact (ih _ _).trans (ctl_process_left_room RM c u rid lr)

theorem ctl_iter_left_rooms (c : BaseClient R O) (resp : SyncResponse) :
    ctl (iter_left_rooms RM c resp).client = ctl c :=
  ctl_iter_left_rooms_aux RM c false resp.rooms.leave

theorem ctl_crypto_handoff (c : BaseClient R O) (resp : SyncResponse) :
    ctl (crypto_handoff CM c resp) = ctl c := by
  unfold crypto_handoff
  rcases h : c.olm with _ | o <;> simp [h, ctl]

theorem fold_joined_state_updated_of (c : BaseClient R O) (rid : RoomId)
    (u : Bool) (l : List (EventJson StateEvent)) (h : u = true) :
    (fold_joined_state RM c rid u l).2 = true := by
  subst h
  induction l generalizing c with
  | nil => rfl
  | cons ej rest ih =>
    cases ej with
    | bad d => exact ih c
    | ok e => exact ih _

theorem process_timeline_updated_of (c : BaseClient R O) (rid : RoomId)
    (u : Bool) (l : List (EventJson RoomEvent)) (h : u = true) :
    (process_timeline RM CM c rid u l).updated = true := by
  subst h
  induction l generalizing c with
  | nil => rfl
  | cons ej rest ih => exact ih _

theorem fold_account_data_updated_of (c : BaseClient R O) (rid : RoomId)
    (u : Bool) (l : List (EventJson NonRoomEvent)) (h : u = true) :
    (fold_account_data RM c rid u l).updated = true := by
  subst h
  induction l generalizing c with
  | nil => rfl
  | cons ej rest ih =>
    cases ej with
    | bad d => exact ih c
    | ok e => exact ih _

theorem account_step_updated_of (c : BaseClient R O) (rid : RoomId)
    (u : Bool) (o : Option (List (EventJson NonRoomEvent))) (h : u = true) :
    (account_step RM c rid u o).updated = true := by
  cases o with
  | none => exact h
  | some evs => exact fold_account_data_updated_of RM c rid u evs h

theorem fold_presence_updated_of (c : BaseClient R O) (rid : RoomId)
    (u : Bool) (l : List (EventJson PresenceEvent)) (h : u = true) :
    (fold_presence RM c rid u l).updated = true := by
  subst h
  induction l generalizing c with
  | nil => rfl
  | cons ej rest ih =>
    cases ej with
    | bad d => exact ih c
    | ok e => exact ih _

theorem fold_ephemeral_updated_of (c : BaseClient R O) (rid : RoomId)
    (u : Bool) (l : List (EventJson NonRoomEvent)) (h : u = true) :
    (fold_ephemeral RM c rid u l).updated = true := by
  subst h
  induction l generalizing c with
  | nil => rfl
  | cons ej rest ih =>
    cases ej with
    | bad d => exact ih c
    | ok e => exact ih _

theorem process_joined_room_updated_of (c : BaseClient R O) (u : Bool)
    (rid : RoomId) (jr : JoinedRoomData)
    (pres : List (EventJson PresenceEvent)) (h : u = true) :
    (process_joined_room RM CM c u rid jr pres).updated = true := by
  show (fold_ephemeral RM _ rid _ jr.ephemeral).updated = true
  exact fold_ephemeral_updated_of RM _ rid _ jr.ephemeral
    (fold_presence_updated_of RM _ rid _ pres
      (account_step_updated_of RM _ rid _ jr.account_data
        (process_timeline_updated_of RM CM _ rid _ jr.timeline
          (fold_joined_state_updated_of RM c rid u jr.state h))))

theorem iter_joined_rooms_aux_updated_of (c : BaseClient R O) (u : Bool)
    (pres : List (EventJson PresenceEvent))
    (l : List (RoomId × JoinedRoomData)) (h : u = true) :
    (iter_joined_rooms_aux RM CM c u pres l).updated = true := by
  induction l generalizing c u with
  | nil => exact h
  | cons rj rest ih =>
    obtain ⟨rid, jr⟩ := rj
    exact ih _ _ (process_joined_room_updated_of RM CM c u rid jr pres h)

theorem tracked_users_step_joined_rooms (c : BaseClient R O) (room : R) :
    (tracked_users_step RM CM c room).joined_rooms = c.joined_rooms := by
  unfold tracked_users_step
  rcases h : c.olm with _ | o
  · rfl
  · by_cases he : RM.is_encrypted room <;> simp [he]

theorem joined_isSome_prelude (c : BaseClient R O) (rid : RoomId)
    (jr : JoinedRoomData) :
    (AList.lookup rid
      (joined_room_prelude RM CM c rid jr).joined_rooms).isSome = true := by
  simp only [joined_room_prelude]
  rw [AList.lookup_set_isSome, AList.lookup_set_isSome,
    tracked_users_step_joined_rooms]
  exact lookup_get_or_create_joined RM c rid

theorem joined_rooms_handle_ignored_users (c : BaseClient R O)
    (users : List UserId) :
    (handle_ignored_users c users).1.joined_rooms = c.joined_rooms := by
  unfold handle_ignored_users
  split <;> rfl

theorem joined_isSome_receive_presence (c : BaseClient R O) (rid : RoomId)
    (p : PresenceEvent)
    (h : (AList.lookup rid c.joined_rooms).isSome = true) :
    (AList.lookup rid
      (receive_presence_event RM c rid p).1.joined_rooms).isSome = true := by
  rcases hl : AList.lookup rid c.joined_rooms with _ | room
  · simp [hl] at h
  · simp [receive_presence_event, hl, AList.lookup_set_isSome, h]

theorem joined_isSome_receive_account (c : BaseClient R O) (rid : RoomId)
    (e : NonRoomEvent)
    (h : (AList.lookup rid c.joined_rooms).isSome = true) :
    (AList.lookup rid
      (receive_account_data_event RM c rid e).1.joined_rooms).isSome
      = true := by
  cases e with
  | ignored_user_list users =>
    rw [show (receive_account_data_event RM c rid
        (.ignored_user_list users)).1.joined_rooms
        = c.joined_rooms from joined_rooms_handle_ignored_users c users]
    exact h
  | presence p => exact joined_isSome_receive_presence RM c rid p h
  | push_rules r => exact h
  | fully_read d => exact h
  | other d => exact h

theorem joined_isSome_receive_ephemeral (c : BaseClient R O) (rid : RoomId)
    (e : NonRoomEvent)
    (h : (AList.lookup rid c.joined_rooms).isSome = true) :
    (AList.lookup rid
      (receive_ephemeral_event RM c rid e).1.joined_rooms).isSome = true := by
  cases e with
  | ignored_user_list users =>
    rw [show (receive_ephemeral_event RM c rid
        (.ignored_user_list users)).1.joined_rooms
        = c.joined_rooms from joined_rooms_handle_ignored_users c users]
    exact h
  | presence p => exact joined_isSome_receive_presence RM c rid p h
  | push_rules r => exact h
  | fully_read d => exact h
  | other d => exact h

theorem joined_isSome_receive_joined_timeline (c : BaseClient R O)
    (rid : RoomId) (ej : EventJson RoomEvent)
    (h : (AList.lookup rid c.joined_rooms).isSome = true) :
    (AList.lookup rid
      (receive_joined_timeline_event RM CM c rid ej).client.joined_rooms).isSome
      = true := by
  cases ej with
  | bad d => exact h
  | ok e =>
    show (AList.lookup rid (AList.set rid _ _)).isSome = true
    rw [AList.lookup_set_isSome]
    exact lookup_get_or_create_joined RM _ rid

theorem joined_isSome_process_timeline (c : BaseClient R O) (rid : RoomId)
    (u : Bool) (l : List (EventJson RoomEvent))
    (h : (AList.lookup rid c.joined_rooms).isSome = true) :
    (AList.lookup rid
      (process_timeline RM CM c rid u l).client.joined_rooms).isSome = true := by
  induction l generalizing c u with
  | nil => exact h
  | cons ej rest ih =>
    exact ih _ _ (joined_isSome_receive_joined_timeline RM CM c rid ej h)

theorem joined_isSome_fold_account_data (c : BaseClient R O) (rid : RoomId)
    (u : Bool) (l : List (EventJson NonRoomEvent))
    (h : (AList.lookup rid c.joined_rooms).isSome = true) :
    (AList.lookup rid
      (fold_account_data RM c rid u l).client.joined_rooms).isSome = true := by
  induction l generalizing c u with
  | nil => exact h
  | cons ej rest ih =>
    cases ej with
    | bad d => exact ih c u h
    | ok e => exact ih _ _ (joined_isSome_receive_account RM c rid e h)

theorem joined_isSome_account_step (c : BaseClient R O) (rid : RoomId)
    (u : Bool) (o : Option (List (EventJson NonRoomEvent)))
    (h : (AList.lookup rid c.joined_rooms).isSome = true) :
    (AList.lookup rid
      (account_step RM c rid u o).client.joined_rooms).isSome = true := by
  cases o with
  | none => exact h
  | some evs => exact joined_isSome_fold_account_data RM c rid u evs h

theorem joined_isSome_fold_presence (c : BaseClient R O) (rid : RoomId)
    (u : Bool) (l : List (EventJson PresenceEvent))
    (h : (AList.lookup rid c.joined_rooms).isSome = true) :
    (AList.lookup rid
      (fold_presence RM c rid u l).client.joined_rooms).isSome = true := by
  induction l generalizing c u with
  | nil => exact h
  | cons ej rest ih =>
    cases ej with
    | bad d => exact ih c u h
    | ok e => exact ih _ _ (joined_isSome_receive_presence RM c rid e h)

theorem joined_isSome_fold_ephemeral (c : BaseClient R O) (rid : RoomId)
    (u : Bool) (l : List (EventJson NonRoomEvent))
    (h : (AList.lookup rid c.joined_rooms).isSome = true) :
    (AList.lookup rid
      (fold_ephemeral RM c rid u l).client.joined_rooms).isSome = true := by
  induction l generalizing c u with
  | nil => exact h
  | cons ej rest ih =>
    cases ej with
    | bad d => exact ih c u h
    | ok e => exact ih _ _ (joined_isSome_receive_ephemeral RM c rid e h)

theorem mem_emit_timeline_event (c : BaseClient R O) (rid : RoomId)
    (e : RoomEvent) (s : RoomStateType) :
    ∀ x ∈ emit_timeline_event c rid e s,
      x = Effect.emit (Emit.timeline rid e s) := by
  intro x hx
  unfold emit_timeline_event at hx
  repeat' split at hx
  all_goals simp_all

theorem mem_emit_state_event (c : BaseClient R O) (rid : RoomId)
    (e : StateEvent) (s : RoomStateType) :
    ∀ x ∈ emit_state_event c rid e s,
      x = Effect.emit (Emit.state rid e s) := by
  intro x hx
  unfold emit_state_event at hx
  repeat' split at hx
  all_goals simp_all

theorem mem_emit_stripped_state_event (c : BaseClient R O) (rid : RoomId)
    (e : AnyStrippedStateEvent) (s : RoomStateType) :
    ∀ x ∈ emit_stripped_state_event c rid e s,
      x = Effect.emit (Emit.stripped_state rid e s) := by
  intro x hx
  unfold emit_stripped_state_event at hx
  repeat' split at hx
  all_goals simp_all

theorem mem_emit_account_data_event (c : BaseClient R O) (rid : RoomId)
    (e : NonRoomEvent) (s : RoomStateType) :
    ∀ x ∈ emit_account_data_event c rid e s,
      x = Effect.emit (Emit.account_data rid e s) := by
  intro x hx
  unfold emit_account_data_event at hx
  repeat' split at hx
  all_goals simp_all

theorem mem_emit_ephemeral_event (c : BaseClient R O) (rid : RoomId)
    (e : NonRoomEvent) (s : RoomStateType) :
    ∀ x ∈ emit_ephemeral_event c rid e s,
      x = Effect.emit (Emit.ephemeral rid e s) := by
  intro x hx
  unfold emit_ephemeral_event at hx
  repeat' split at hx
  all_goals simp_all

theorem mem_emit_presence_event (c : BaseClient R O) (rid : RoomId)
    (e : PresenceEvent) (s : RoomStateType) :
    ∀ x ∈ emit_presence_event c rid e s,
      x = Effect.emit (Emit.presence rid e s) := by
  intro x hx
  unfold emit_presence_event at hx
  repeat' split at hx
  all_goals simp_all

theorem mem_emit_state_events (c : BaseClient R O) (rid : RoomId)
    (s : RoomStateType) (l : List (EventJson StateEvent)) :
    ∀ x ∈ emit_state_events c rid s l,
      ∃ e, x = Effect.emit (Emit.state rid e s) := by
  induction l with
  | nil => intro x hx; simp [emit_state_events] at hx
  | cons ej rest ih =>
    intro x hx
    simp only [emit_state_events] at hx
    rcases List.mem_append.mp hx with h | h
    · cases ej with
      | bad d => simp [EventJson.deserialize] at h
      | ok e => exact ⟨e, mem_emit_state_event c rid e s x h⟩
    · exact ih x h

theorem mem_emit_stripped_events (c : BaseClient R O) (rid : RoomId)
    (l : List (EventJson AnyStrippedStateEvent)) :
    ∀ x ∈ emit_stripped_events c rid l,
      ∃ e, x = Effect.emit (Emit.stripped_state rid e .Invited) := by
  induction l with
  | nil => intro x hx; simp [emit_stripped_events] at hx
  | cons ej rest ih =>
    intro x hx
    simp only [emit_stripped_events] at hx
    rcases List.mem_append.mp hx with h | h
    · cases ej with
      | bad d => simp [EventJson.deserialize] at h
      | ok e => exact ⟨e, mem_emit_stripped_state_event c rid e .Invited x h⟩
    · exact ih x h

theorem mem_process_timeline_effects (c : BaseClient R O) (rid : RoomId)
    (u : Bool) (l : List (EventJson RoomEvent)) :
    ∀ x ∈ (process_timeline RM CM c rid u l).effects,
      ∃ e, x = Effect.emit (Emit.timeline rid e .Joined) := by
  induction l generalizing c u with
  | nil => intro x hx; simp [process_timeline] at hx
  | cons ej rest ih =>
    intro x hx
    simp only [process_timeline] at hx
    rcases List.mem_append.mp hx with h | h
    · rcases hd : ((receive_joined_timeline_event RM CM c rid
          ej).decrypted.getD ej).deserialize with _ | e
      · rw [hd] at h; simp at h
      · rw [hd] at h
        exact ⟨e, mem_emit_timeline_event _ rid e .Joined x h⟩
    · exact ih _ _ x h

theorem mem_fold_account_data_effects (c : BaseClient R O) (rid : RoomId)
    (u : Bool) (l : List (EventJson NonRoomEvent)) :
    ∀ x ∈ (fold_account_data RM c rid u l).effects,
      ∃ e, x = Effect.emit (Emit.account_data rid e .Joined) := by
  induction l generalizing c u with
  | nil => intro x hx; simp [fold_account_data] at hx
  | cons ej rest ih =>
    intro x hx
    cases ej with
    | bad d => exact ih c u x hx
    | ok e =>
      simp only [fold_account_data, EventJson.deserialize] at hx
      rcases List.mem_append.mp hx with h | h
      · exact ⟨e, mem_emit_account_data_event _ rid e .Joined x h⟩
      · exact ih _ _ x h

theorem mem_account_step_effects (c : BaseClient R O) (rid : RoomId)
    (u : Bool) (o : Option (List (EventJson NonRoomEvent))) :
    ∀ x ∈ (account_step RM c rid u o).effects,
      ∃ e, x = Effect.emit (Emit.account_data rid e .Joined) := by
  cases o with
  | none => intro x hx; simp [account_step] at hx
  | some evs => exact mem_fold_account_data_effects RM c rid u evs

theorem mem_fold_presence_effects (c : BaseClient R O) (rid : RoomId)
    (u : Bool) (l : List (EventJson PresenceEvent)) :
    ∀ x ∈ (fold_presence RM c rid u l).effects,
      ∃ p, x = Effect.emit (Emit.presence rid p .Joined) := by
  induction l generalizing c u with
  | nil => intro x hx; simp [fold_presence] at hx
  | cons ej rest ih =>
    intro x hx
    cases ej with
    | bad d => exact ih c u x hx
    | ok e =>
      simp only [fold_presence, EventJson.deserialize] at hx
      rcases List.mem_append.mp hx with h | h
      · exact ⟨e, mem_emit_presence_event _ rid e .Joined x h⟩
      · exact ih _ _ x h

theorem mem_fold_ephemeral_effects (c : BaseClient R O) (rid : RoomId)
    (u : Bool) (l : List (EventJson NonRoomEvent)) :
    ∀ x ∈ (fold_ephemeral RM c rid u l).effects,
      ∃ e, x = Effect.emit (Emit.ephemeral rid e .Joined) := by
  induction l generalizing c u with
  | nil => intro x hx; simp [fold_ephemeral] at hx
  | cons ej rest ih =>
    intro x hx
    cases ej with
    | bad d => exact ih c u x hx
    | ok e =>
      simp only [fold_ephemeral, EventJson.deserialize] at hx
      rcases List.mem_append.mp hx with h | h
      · exact ⟨e, mem_emit_ephemeral_event _ rid e .Joined x h⟩
      · exact ih _ _ x h

theorem mem_fold_left_timeline_effects (c : BaseClient R O) (rid : RoomId)
    (u : Bool) (l : List (EventJson RoomEvent)) :
    ∀ x ∈ (fold_left_timeline RM c rid u l).effects,
      ∃ e, x = Effect.emit (Emit.timeline rid e .Left) := by
  induction l generalizing c u with
  | nil => intro x hx; simp [fold_left_timeline] at hx
  | cons ej rest ih =>
    intro x hx
    simp only [fold_left_timeline] at hx
    rcases List.mem_append.mp hx with h | h
    · cases ej with
      | bad d => simp [EventJson.deserialize] at h
      | ok e => exact ⟨e, mem_emit_timeline_event _ rid e .Left x h⟩
    · exact ih _ _ x h

theorem mem_joined_room_write (c : BaseClient R O) (rid : RoomId) (u : Bool) :
    ∀ x ∈ joined_room_write c rid u,
      ∃ r, x = Effect.write (StoreWrite.room_state .Joined rid r) := by
  intro x hx
  unfold joined_room_write at hx
  repeat' split at hx
  all_goals simp_all

theorem mem_invited_room_write (c : BaseClient R O) (rid : RoomId) (u : Bool) :
    ∀ x ∈ invited_room_write c rid u,
      ∃ r, x = Effect.write (StoreWrite.room_state .Invited rid r) := by
  intro x hx
  unfold invited_room_write at hx
  repeat' split at hx
  all_goals simp_all

theorem mem_left_room_write (c : BaseClient R O) (rid : RoomId) (u : Bool) :
    ∀ x ∈ left_room_write c rid u,
      ∃ r, x = Effect.write (StoreWrite.room_state .Left rid r) := by
  intro x hx
  unfold left_room_write at hx
  repeat' split at hx
  all_goals simp_all

theorem not_cs_write_process_joined_room (c : BaseClient R O) (u : Bool)
    (rid : RoomId) (jr : JoinedRoomData)
    (pres : List (EventJson PresenceEvent)) :
    ∀ x ∈ (process_joined_room RM CM c u rid jr pres).effects,
      is_client_state_write x = false := by
  intro x hx
  simp only [process_joined_room] at hx
  rcases List.mem_append.mp hx with hx | hx
  · rcases List.mem_append.mp hx with hx | hx
    · rcases List.mem_append.mp hx with hx | hx
      · rcases List.mem_append.mp hx with hx | hx
        · rcases List.mem_append.mp hx with hx | hx
          · obtain ⟨e, rfl⟩ := mem_emit_state_events _ rid .Joined jr.state x hx
            rfl
          · obtain ⟨e, rfl⟩ :=
              mem_process_timeline_effects RM CM _ rid _ jr.timeline x hx
            rfl
        · obtain ⟨e, rfl⟩ :=
            mem_account_step_effects RM _ rid _ jr.account_data x hx
          rfl
      · obtain ⟨p, rfl⟩ := mem_fold_presence_effects RM _ rid _ pres x hx
        rfl
    · obtain ⟨e, rfl⟩ := mem_fold_ephemeral_effects RM _ rid _ jr.ephemeral x hx
      rfl
  · obtain ⟨r, rfl⟩ := mem_joined_room_write _ rid _ x hx
    rfl

theorem not_cs_write_process_invited_room (c : BaseClient R O) (u : Bool)
    (rid : RoomId) (ir : InvitedRoomData) :
    ∀ x ∈ (process_invited_room RM c u rid ir).effects,
      is_client_state_write x = false := by
  intro x hx
  simp only [process_invited_room] at hx
  rcases List.mem_append.mp hx with hx | hx
  · obtain ⟨e, rfl⟩ := mem_emit_stripped_events _ rid ir.invite_state x hx
    rfl
  · obtain ⟨r, rfl⟩ := mem_invited_room_write _ rid _ x hx
    rfl

theorem not_cs_write_process_left_room (c : BaseClient R O) (u : Bool)
    (rid : RoomId) (lr : LeftRoomData) :
    ∀ x ∈ (process_left_room RM c u rid lr).effects,
      is_client_state_write x = false := by
  intro x hx
  simp only [process_left_room] at hx
  rcases List.mem_append.mp hx with hx | hx
  · rcases List.mem_append.mp hx with hx | hx
    · obtain ⟨e, rfl⟩ := mem_emit_state_events _ rid .Left lr.state x hx
      rfl
    · obtain ⟨e, rfl⟩ :=
        mem_fold_left_timeline_effects RM _ rid _ lr.timeline x hx
      rfl
  · obtain ⟨r, rfl⟩ := mem_left_room_write _ rid _ x hx
    rfl

theorem not_cs_write_iter_joined_aux (c : BaseClient R O) (u : Bool)
    (pres : List (EventJson PresenceEvent))
    (l : List (RoomId × JoinedRoomData)) :
    ∀ x ∈ (iter_joined_rooms_aux RM CM c u pres l).effects,
      is_client_state_write x = false := by
  induction l generalizing c u with
  | nil => intro x hx; simp [iter_joined_rooms_aux] at hx
  | cons rj rest ih =>
    obtain ⟨rid, jr⟩ := rj
    intro x hx
    simp only [iter_joined_rooms_aux] at hx
    rcases List.mem_append.mp hx with h | h
    · exact not_cs_write_process_joined_room RM CM c u rid jr pres x h
    · exact ih _ _ x h

theorem not_cs_write_iter_invited_aux (c : BaseClient R O) (u : Bool)
    (l : List (RoomId × InvitedRoomData)) :
    ∀ x ∈ (iter_invited_rooms_aux RM c u l).effects,
      is_client_state_write x = false := by
  induction l generalizing c u with
  | nil => intro x hx; simp [iter_invited_rooms_aux] at hx
  | cons ri rest ih =>
    obtain ⟨rid, ir⟩ := ri
    intro x hx
    simp only [iter_invited_rooms_aux] at hx
    rcases List.mem_append.mp hx with h | h
    · exact not_cs_write_process_invited_room RM c u rid ir x h
    · exact ih _ _ x h

theorem not_cs_write_iter_left_aux (c : BaseClient R O) (u : Bool)
    (l : List (RoomId × LeftRoomData)) :
    ∀ x ∈ (iter_left_rooms_aux RM c u l).effects,
      is_client_state_write x = false := by
  induction l generalizing c u with
  | nil => intro x hx; simp [iter_left_rooms_aux] at hx
  | cons rl rest ih =>
    obtain ⟨rid, lr⟩ := rl
    intro x hx
    simp only [iter_left_rooms_aux] at hx
    rcases List.mem_append.mp hx with h | h
    · exact not_cs_write_process_left_room RM c u rid lr x h
    · exact ih _ _ x h

theorem sync_token_iter_joined (c : BaseClient R O) (resp : SyncResponse) :
    (iter_joined_rooms RM CM c resp).client.sync_token = c.sync_token :=
  congrArg Ctl.sync_token (ctl_iter_joined_rooms RM CM c resp)

theorem sync_token_iter_invited (c : BaseClient R O) (resp : SyncResponse) :
    (iter_invited_rooms RM c resp).client.sync_token = c.sync_token :=
  congrArg Ctl.sync_token (ctl_iter_invited_rooms RM c resp)

theorem sync_token_iter_left (c : BaseClient R O) (resp : SyncResponse) :
    (iter_left_rooms RM c resp).client.sync_token = c.sync_token :=
  congrArg Ctl.sync_token (ctl_iter_left_rooms RM c resp)

theorem sync_token_crypto_handoff (c : BaseClient R O) (resp : SyncResponse) :
    (crypto_handoff CM c resp).sync_token = c.sync_token :=
  congrArg Ctl.sync_token (ctl_crypto_handoff CM c resp)

theorem sync_token_receive_sync_response (c : BaseClient R O)
    (resp : SyncResponse) :
    (receive_sync_response RM CM c resp).client.sync_token
      = some resp.next_batch := by
  unfold receive_sync_response
  split
  · next h => exact h
  · next h =>
    show (iter_left_rooms RM _ _).client.sync_token = _
    rw [sync_token_iter_left, sync_token_iter_invited, sync_token_iter_joined,
      sync_token_crypto_handoff]

theorem joined_room_write_of_true (c : BaseClient R O) (rid : RoomId)
    (hs : c.state_store.isSome = true)
    (hm : (AList.lookup rid c.joined_rooms).isSome = true) :
    ∃ r, joined_room_write c rid true
      = [Effect.write (StoreWrite.room_state .Joined rid r)] := by
  rcases hss : c.state_store with _ | st
  · simp [hss] at hs
  · rcases hl : AList.lookup rid c.joined_rooms with _ | r
    · simp [hl] at hm
    · exact ⟨r, by simp [joined_room_write, hss, hl]⟩

theorem joined_room_write_suffix (c : BaseClient R O) (u : Bool)
    (rid : RoomId) (jr : JoinedRoomData)
    (pres : List (EventJson PresenceEvent)) :
    ∀ x ∈ joined_room_write
        (process_joined_room RM CM c u rid jr pres).client rid
        (process_joined_room RM CM c u rid jr pres).updated,
      x ∈ (process_joined_room RM CM c u rid jr pres).effects := by
  intro x hx
  simp only [process_joined_room] at hx ⊢
  exact List.mem_append.mpr (Or.inr hx)

theorem joined_isSome_process_joined_room (c : BaseClient R O) (u : Bool)
    (rid : RoomId) (jr : JoinedRoomData)
    (pres : List (EventJson PresenceEvent)) :
    (AList.lookup rid
      (process_joined_room RM CM c u rid jr pres).client.joined_rooms).isSome
      = true := by
  show (AList.lookup rid
    (fold_ephemeral RM _ rid _ jr.ephemeral).client.joined_rooms).isSome = true
  exact joined_isSome_fold_ephemeral RM _ rid _ _
    (joined_isSome_fold_presence RM _ rid _ _
      (joined_isSome_account_step RM _ rid _ _
        (joined_isSome_process_timeline RM CM _ rid _ _
          (joined_isSome_prelude RM CM _ rid jr))))

theorem write_mem_process_joined_room (c : BaseClient R O) (u : Bool)
    (rid : RoomId) (jr : JoinedRoomData)
    (pres : List (EventJson PresenceEvent)) (hu : u = true)
    (hs : c.state_store.isSome = true) :
    ∃ r, Effect.write (StoreWrite.room_state .Joined rid r)
      ∈ (process_joined_room RM CM c u rid jr pres).effects := by
  have hu2 : (process_joined_room RM CM c u rid jr pres).updated = true :=
    process_joined_room_updated_of RM CM c u rid jr pres hu
  have hst : (process_joined_room RM CM c u rid jr pres).client.state_store
      = c.state_store :=
    congrArg Ctl.state_store (ctl_process_joined_room RM CM c u rid jr pres)
  obtain ⟨r, hw⟩ := joined_room_write_of_true
    (process_joined_room RM CM c u rid jr pres).client rid
    (by rw [hst]; exact hs)
    (joined_isSome_process_joined_room RM CM c u rid jr pres)
  refine ⟨r, joined_room_write_suffix RM CM c u rid jr pres _ ?_⟩
  rw [hu2, hw]
  exact List.mem_singleton.mpr rfl

theorem no_store_write_process_joined_room (c : BaseClient R O) (u : Bool)
    (rid : RoomId) (jr : JoinedRoomData)
    (pres : List (EventJson PresenceEvent))
    (h : (process_joined_room RM CM c u rid jr pres).updated = false) :
    ∀ x ∈ (process_joined_room RM CM c u rid jr pres).effects,
      is_store_write x = false := by
  intro x hx
  simp only [process_joined_room] at hx h
  rcases List.mem_append.mp hx with hx | hx
  · rcases List.mem_append.mp hx with hx | hx
    · rcases List.mem_append.mp hx with hx | hx
      · rcases List.mem_append.mp hx with hx | hx
        · rcases List.mem_append.mp hx with hx | hx
          · obtain ⟨e, rfl⟩ := mem_emit_state_events _ rid .Joined jr.state x hx
            rfl
          · obtain ⟨e, rfl⟩ :=
              mem_process_timeline_effects RM CM _ rid _ jr.timeline x hx
            rfl
        · obtain ⟨e, rfl⟩ :=
            mem_account_step_effects RM _ rid _ jr.account_data x hx
          rfl
      · obtain ⟨p, rfl⟩ := mem_fold_presence_effects RM _ rid _ pres x hx
        rfl
    · obtain ⟨e, rfl⟩ := mem_fold_ephemeral_effects RM _ rid _ jr.ephemeral x hx
      rfl
  · rw [h] at hx
    simp [joined_room_write] at hx

theorem write_mem_iter_joined_all (c : BaseClient R O)
    (pres : List (EventJson PresenceEvent))
    (ys : List (RoomId × JoinedRoomData)) (rid : RoomId)
    (jr : JoinedRoomData) (hs : c.state_store.isSome = true)
    (hmem : (rid, jr) ∈ ys) :
    ∃ r, Effect.write (StoreWrite.room_state .Joined rid r)
      ∈ (iter_joined_rooms_aux RM CM c true pres ys).effects := by
  induction ys generalizing c with
  | nil => cases hmem
  | cons y rest ih =>
    obtain ⟨rid2, jr2⟩ := y
    rcases List.mem_cons.mp hmem with heq | hmem2
    · cases heq
      obtain ⟨r, hr⟩ :=
        write_mem_process_joined_room RM CM c true rid jr pres rfl hs
      refine ⟨r, ?_⟩
      simp only [iter_joined_rooms_aux]
      exact List.mem_append.mpr (Or.inl hr)
    · have hs2 : (process_joined_room RM CM c true rid2 jr2
          pres).client.state_store.isSome = true := by
        have h2 : (process_joined_room RM CM c true rid2 jr2
            pres).client.state_store = c.state_store :=
          congrArg Ctl.state_store
            (ctl_process_joined_room RM CM c true rid2 jr2 pres)
        rw [h2]; exact hs
      obtain ⟨r, hr⟩ := ih _ hs2 hmem2
      refine ⟨r, ?_⟩
      simp only [iter_joined_rooms_aux]
      rw [process_joined_room_updated_of RM CM c true rid2 jr2 pres rfl]
      exact List.mem_append.mpr (Or.inr hr)

theorem write_mem_iter_joined_xs_ys (c : BaseClient R O) (u : Bool)
    (pres : List (EventJson PresenceEvent))
    (xs ys : List (RoomId × JoinedRoomData)) (rid : RoomId)
    (jr : JoinedRoomData) (hs : c.state_store.isSome = true)
    (hu : (iter_joined_rooms_aux RM CM c u pres xs).updated = true)
    (hmem : (rid, jr) ∈ ys) :
    ∃ r, Effect.write (StoreWrite.room_state .Joined rid r)
      ∈ (iter_joined_rooms_aux RM CM c u pres (xs ++ ys)).effects := by
  induction xs generalizing c u with
  | nil =>
    have hu2 : u = true := hu
    subst hu2
    exact write_mem_iter_joined_all RM CM c pres ys rid jr hs hmem
  | cons x rest ih =>
    obtain ⟨rid2, jr2⟩ := x
    have hs2 : (process_joined_room RM CM c u rid2 jr2
        pres).client.state_store.isSome = true := by
      have h2 : (process_joined_room RM CM c u rid2 jr2
          pres).client.state_store = c.state_store :=
        congrArg Ctl.state_store
          (ctl_process_joined_room RM CM c u rid2 jr2 pres)
      rw [h2]; exact hs
    obtain ⟨r, hr⟩ := ih _ _ hs2 hu
    refine ⟨r, ?_⟩
    simp only [List.cons_append, iter_joined_rooms_aux]
    exact List.mem_append.mpr (Or.inr hr)

theorem not_cs_write_iter_joined (c : BaseClient R O) (resp : SyncResponse) :
    ∀ x ∈ (iter_joined_rooms RM CM c resp).effects,
      is_client_state_write x = false :=
  fun x hx =>
    not_cs_write_iter_joined_aux RM CM c false resp.presence resp.rooms.join x hx

theorem not_cs_write_iter_invited (c : BaseClient R O) (resp : SyncResponse) :
    ∀ x ∈ (iter_invited_rooms RM c resp).effects,
      is_client_state_write x = false :=
  fun x hx => not_cs_write_iter_invited_aux RM c false resp.rooms.invite x hx

theorem not_cs_write_iter_left (c : BaseClient R O) (resp : SyncResponse) :
    ∀ x ∈ (iter_left_rooms RM c resp).effects,
      is_client_state_write x = false :=
  fun x hx => not_cs_write_iter_left_aux RM c false resp.rooms.leave x hx

theorem ignored_users_tracked_users_step (c : BaseClient R O) (room : R) :
    (tracked_users_step RM CM c room).ignored_users = c.ignored_users := by
  unfold tracked_users_step
  rcases h : c.olm with _ | o
  · rfl
  · by_cases he : RM.is_encrypted room <;> simp [he]

theorem ignored_users_joined_room_prelude (c : BaseClient R O) (rid : RoomId)
    (jr : JoinedRoomData) :
    (joined_room_prelude RM CM c rid jr).ignored_users = c.ignored_users := by
  unfold joined_room_prelude
  exact ignored_users_tracked_users_step RM CM _ _

theorem event_emitter_joined_room_prelude (c : BaseClient R O) (rid : RoomId)
    (jr : JoinedRoomData) :
    (joined_room_prelude RM CM c rid jr).event_emitter = c.event_emitter :=
  congrArg Ctl.event_emitter (ctl_joined_room_prelude RM CM c rid jr)

theorem event_emitter_receive_presence (c : BaseClient R O) (rid : RoomId)
    (p : PresenceEvent) :
    (receive_presence_event RM c rid p).1.event_emitter = c.event_emitter :=
  congrArg Ctl.event_emitter (ctl_receive_presence_event RM c rid p)

theorem event_emitter_process_joined_room (c : BaseClient R O) (u : Bool)
    (rid : RoomId) (jr : JoinedRoomData)
    (pres : List (EventJson PresenceEvent)) :
    (process_joined_room RM CM c u rid jr pres).client.event_emitter
      = c.event_emitter :=
  congrArg Ctl.event_emitter (ctl_process_joined_room RM CM c u rid jr pres)

theorem emit_presence_event_eq (c : BaseClient R O) (rid : RoomId)
    (p : PresenceEvent) (he : c.event_emitter = true)
    (hm : (AList.lookup rid c.joined_rooms).isSome = true) :
    emit_presence_event c rid p .Joined
      = [Effect.emit (Emit.presence rid p .Joined)] := by
  rcases hl : AList.lookup rid c.joined_rooms with _ | r
  · simp [hl] at hm
  · simp [emit_presence_event, bucket_lookup, he, hl]

theorem filter_presence_joined_room_write (c : BaseClient R O) (rid : RoomId)
    (u : Bool) :
    List.filter is_presence_emit (joined_room_write c rid u) = [] := by
  rw [List.filter_eq_nil_iff]
  intro x hx
  obtain ⟨r, rfl⟩ := mem_joined_room_write c rid u x hx
  simp [is_presence_emit]

theorem filter_presence_process_one (c : BaseClient R O) (u : Bool)
    (rid : RoomId) (sm un : Nat) (p : PresenceEvent)
    (he : c.event_emitter = true) :
    List.filter is_presence_emit
      (process_joined_room RM CM c u rid ⟨[], [], [], none, sm, un⟩
        [EventJson.ok p]).effects
      = [Effect.emit (Emit.presence rid p .Joined)] := by
  have he2 : (receive_presence_event RM
      (joined_room_prelude RM CM c rid ⟨[], [], [], none, sm, un⟩)
      rid p).1.event_emitter = true := by
    rw [event_emitter_receive_presence, event_emitter_joined_room_prelude]
    exact he
  have hm2 : (AList.lookup rid (receive_presence_event RM
      (joined_room_prelude RM CM c rid ⟨[], [], [], none, sm, un⟩)
      rid p).1.joined_rooms).isSome = true :=
    joined_isSome_receive_presence RM _ rid p
      (joined_isSome_prelude RM CM _ rid _)
  simp only [process_joined_room, fold_joined_state, account_step,
    process_timeline, fold_ephemeral, emit_state_events, fold_presence,
    EventJson.deserialize, List.filter_append, List.nil_append,
    List.append_nil, List.filter_nil]
  rw [filter_presence_joined_room_write, List.append_nil,
    emit_presence_event_eq _ rid p he2 hm2]
  simp [is_presence_emit]

theorem filter_presence_iter_joined_aux (c : BaseClient R O) (u : Bool)
    (sm un : Nat) (p : PresenceEvent) (rids : List RoomId)
    (he : c.event_emitter = true) :
    List.filter is_presence_emit
      (iter_joined_rooms_aux RM CM c u [EventJson.ok p]
        (rids.map (fun r2 =>
          (r2, (⟨[], [], [], none, sm, un⟩ : JoinedRoomData))))).effects
      = rids.map (fun r2 => Effect.emit (Emit.presence r2 p .Joined)) := by
  induction rids generalizing c u with
  | nil => simp [iter_joined_rooms_aux]
  | cons r2 rest ih =>
    have he2 : (process_joined_room RM CM c u r2 ⟨[], [], [], none, sm, un⟩
        [EventJson.ok p]).client.event_emitter = true := by
      rw [event_emitter_process_joined_room]; exact he
    simp only [List.map_cons, iter_joined_rooms_aux, List.filter_append]
    rw [filter_presence_process_one RM CM c u r2 sm un p he, ih _ _ he2]
    simp

theorem receive_sync_short_circuit (c : BaseClient R O) (resp : SyncResponse)
    (h : c.sync_token = some resp.next_batch) :
    receive_sync_response RM CM c resp = ⟨c, resp, []⟩ := by
  unfold receive_sync_response
  rw [if_pos h]

theorem joined_isSome_receive_joined_timeline_ok (c : BaseClient R O)
    (rid : RoomId) (e : RoomEvent) :
    (AList.lookup rid (receive_joined_timeline_event RM CM c rid
      (.ok e)).client.joined_rooms).isSome = true := by
  show (AList.lookup rid (AList.set rid _ _)).isSome = true
  rw [AList.lookup_set_isSome]
  exact lookup_get_or_create_joined RM _ rid

theorem emit_timeline_event_eq (c : BaseClient R O) (rid : RoomId)
    (e : RoomEvent) (he : c.event_emitter = true)
    (hm : (AList.lookup rid c.joined_rooms).isSome = true)
    (hc : timeline_has_callback e = true) :
    emit_timeline_event c rid e .Joined
      = [Effect.emit (Emit.timeline rid e .Joined)] := by
  rcases hl : AList.lookup rid c.joined_rooms with _ | r
  · simp [hl] at hm
  · simp [emit_timeline_event, bucket_lookup, he, hl, hc]

theorem emit_timeline_event_no_callback (c : BaseClient R O) (rid : RoomId)
    (e : RoomEvent) (s : RoomStateType)
    (hc : timeline_has_callback e = false) :
    emit_timeline_event c rid e s = [] := by
  unfold emit_timeline_event
  repeat' split <;> simp_all

theorem decrypted_receive_joined_timeline (c : BaseClient R O) (rid : RoomId)
    (d : Nat) (o : O) (ho : c.olm = some o) :
    (receive_joined_timeline_event RM CM c rid
      (.ok (.room_encrypted d))).decrypted = (CM.decrypt_room_event o rid d).2 := by
  simp [receive_joined_timeline_event, decrypt_step, EventJson.deserialize, ho]

theorem decrypted_receive_joined_timeline_none (c : BaseClient R O)
    (rid : RoomId) (d : Nat) (ho : c.olm = none) :
    (receive_joined_timeline_event RM CM c rid
      (.ok (.room_encrypted d))).decrypted = none := by
  simp [receive_joined_timeline_event, decrypt_step, EventJson.deserialize, ho]

end Lemmas

section Claims

variable {R O : Type}

/-- C1 (counterexample): the single-bucket invariant fails on the code.
Starting from a fresh logged-in client, folding a sync response whose
`rooms.join` holds `!r:s` and then one whose `rooms.invite` holds
`!r:s` leaves the room id in BOTH the joined and the invited bucket,
because `get_or_create_invited_room` evicts only from `left_rooms`,
never from `joined_rooms`. -/
theorem C1_counterexample :
    ((AList.lookup "!r:s" (receive_sync_response TrivialRM TrivialCM
        (receive_sync_response TrivialRM TrivialCM c1_base c1_resp1).client
        c1_resp2).client.joined_rooms).isSome = true)
    ∧ ((AList.lookup "!r:s" (receive_sync_response TrivialRM TrivialCM
        (receive_sync_response TrivialRM TrivialCM c1_base c1_resp1).client
        c1_resp2).client.invited_rooms).isSome = true) := by decide

/-- C1 (amended): the joined and left helpers evict the room id from
the other two buckets before inserting it into their target bucket;
the invited helper evicts only from `left_rooms` (the source relies on
the Matrix spec's promise that a join-to-invite transition cannot
happen) and leaves the joined bucket untouched, so the single-bucket
invariant is guaranteed by the joined and left helpers but holds after
the invited helper only when the id was not currently joined. -/
theorem C1_amended (RM : RoomModel R) (c : BaseClient R O) (rid : RoomId) :
    (AList.lookup rid (get_or_create_joined_room RM c rid).1.invited_rooms
        = none
      ∧ AList.lookup rid (get_or_create_joined_room RM c rid).1.left_rooms
        = none
      ∧ (AList.lookup rid
          (get_or_create_joined_room RM c rid).1.joined_rooms).isSome = true)
    ∧ (AList.lookup rid (get_or_create_left_room RM c rid).1.invited_rooms
        = none
      ∧ AList.lookup rid (get_or_create_left_room RM c rid).1.joined_rooms
        = none
      ∧ (AList.lookup rid
          (get_or_create_left_room RM c rid).1.left_rooms).isSome = true)
    ∧ (AList.lookup rid (get_or_create_invited_room RM c rid).1.left_rooms
        = none
      ∧ (AList.lookup rid
          (get_or_create_invited_room RM c rid).1.invited_rooms).isSome = true
      ∧ (get_or_create_invited_room RM c rid).1.joined_rooms
        = c.joined_rooms) :=
  ⟨⟨AList.lookup_remove_self rid c.invited_rooms,
    AList.lookup_remove_self rid c.left_rooms,
    lookup_get_or_create_joined RM c rid⟩,
   ⟨AList.lookup_remove_self rid c.invited_rooms,
    AList.lookup_remove_self rid c.joined_rooms,
    lookup_get_or_create_left RM c rid⟩,
   ⟨AList.lookup_remove_self rid c.left_rooms,
    lookup_get_or_create_invited RM c rid,
    rfl⟩⟩

/-- C2: when the response's `next_batch` equals the current sync
token, `receive_sync_response` returns at once with the client, the
response and the effect list untouched (no folding, no callback, no
store write); consequently applying the same response twice in a row
equals applying it once, the second application being a no-op. -/
theorem C2 (RM : RoomModel R) (CM : OlmModel O) (c : BaseClient R O)
    (resp : SyncResponse) :
    (c.sync_token = some resp.next_batch →
      receive_sync_response RM CM c resp = ⟨c, resp, []⟩)
    ∧ receive_sync_response RM CM
        (receive_sync_response RM CM c resp).client resp
      = ⟨(receive_sync_response RM CM c resp).client, resp, []⟩ :=
  ⟨receive_sync_short_circuit RM CM c resp,
   receive_sync_short_circuit RM CM _ resp
     (sync_token_receive_sync_response RM CM c resp)⟩

/-- C2 (witness): a client whose sync token is already `"t1"`
short-circuits on a response with `next_batch = "t1"`. -/
theorem C2_witness :
    receive_sync_response TrivialRM TrivialCM c2_client c2_resp
      = ⟨c2_client, c2_resp, []⟩ :=
  (C2 TrivialRM TrivialCM c2_client c2_resp).1 rfl

/-- C3: after `receive_sync_response` the sync token equals the
response's `next_batch`; the three per-bucket folds never change the
sync token (the overwrite happens once, before them); and any
`store_client_state` write emitted by the call already carries the new
token. -/
theorem C3 (RM : RoomModel R) (CM : OlmModel O) (c : BaseClient R O)
    (resp : SyncResponse) :
    (receive_sync_response RM CM c resp).client.sync_token
        = some resp.next_batch
    ∧ (∀ (c2 : BaseClient R O) (r2 : SyncResponse),
        (iter_joined_rooms RM CM c2 r2).client.sync_token = c2.sync_token)
    ∧ (∀ (c2 : BaseClient R O) (r2 : SyncResponse),
        (iter_invited_rooms RM c2 r2).client.sync_token = c2.sync_token)
    ∧ (∀ (c2 : BaseClient R O) (r2 : SyncResponse),
        (iter_left_rooms RM c2 r2).client.sync_token = c2.sync_token)
    ∧ (∀ cs, Effect.write (StoreWrite.client_state cs)
        ∈ (receive_sync_response RM CM c resp).effects →
        cs.sync_token = some resp.next_batch) := by
  refine ⟨sync_token_receive_sync_response RM CM c resp,
    fun c2 r2 => sync_token_iter_joined RM CM c2 r2,
    fun c2 r2 => sync_token_iter_invited RM c2 r2,
    fun c2 r2 => sync_token_iter_left RM c2 r2, ?_⟩
  intro cs hcs
  simp only [receive_sync_response] at hcs
  split at hcs
  · simp at hcs
  · rcases List.mem_append.mp hcs with h1 | h1
    · rcases List.mem_append.mp h1 with h2 | h2
      · rcases List.mem_append.mp h2 with h3 | h3
        · have hfalse := not_cs_write_iter_joined RM CM _ _ _ h3
          simp [is_client_state_write] at hfalse
        · have hfalse := not_cs_write_iter_invited RM _ _ _ h3
          simp [is_client_state_write] at hfalse
      · have hfalse := not_cs_write_iter_left RM _ _ _ h2
        simp [is_client_state_write] at hfalse
    · split at h1
      · simp only [List.mem_singleton] at h1
        have hcs2 := h1
        simp only [Effect.write.injEq, StoreWrite.client_state.injEq] at hcs2
        rw [hcs2]
        show (iter_left_rooms _ _ _).client.sync_token = _
        rw [sync_token_iter_left, sync_token_iter_invited,
          sync_token_iter_joined, sync_token_crypto_handoff]
      · simp at h1

/-- C3 (witness): on a fresh client with an empty store, folding an
empty response with `next_batch = "t1"` produces a client-state write
whose token is `"t1"`. -/
theorem C3_witness :
    (⟨some "t1", [], none⟩ : ClientState).sync_token = some "t1" :=
  (C3 TrivialRM TrivialCM c3_client c3_resp).2.2.2.2
    ⟨some "t1", [], none⟩ (by decide)

/-- C4: `handle_ignored_users` compares the incoming list element-wise
against the cached one, returning `false` and leaving the cache
untouched on equality and replacing it (returning `true`) otherwise;
folding one such equal event alone through a joined room leaves the
`updated` flag false and performs no `StateStore` write. -/
theorem C4 (RM : RoomModel R) (CM : OlmModel O) (c : BaseClient R O)
    (users : List UserId) (rid : RoomId) (sm un : Nat) :
    (c.ignored_users = users → handle_ignored_users c users = (c, false))
    ∧ (c.ignored_users ≠ users →
        handle_ignored_users c users
          = ({ c with ignored_users := users }, true))
    ∧ (c.ignored_users = users →
        (process_joined_room RM CM c false rid
          ⟨[], [], [], some [.ok (.ignored_user_list users)], sm, un⟩
          []).updated = false
        ∧ ∀ x ∈ (process_joined_room RM CM c false rid
            ⟨[], [], [], some [.ok (.ignored_user_list users)], sm, un⟩
            []).effects, is_store_write x = false) := by
  refine ⟨fun h => by unfold handle_ignored_users; rw [if_pos h],
    fun h => by unfold handle_ignored_users; rw [if_neg h],
    fun h => ?_⟩
  have hpre : (joined_room_prelude RM CM c rid
      ⟨[], [], [], some [.ok (.ignored_user_list users)], sm,
        un⟩).ignored_users = users := by
    rw [ignored_users_joined_room_prelude]; exact h
  have hh : handle_ignored_users (joined_room_prelude RM CM c rid
      ⟨[], [], [], some [.ok (.ignored_user_list users)], sm, un⟩) users
      = (joined_room_prelude RM CM c rid
          ⟨[], [], [], some [.ok (.ignored_user_list users)], sm, un⟩,
        false) := by
    unfold handle_ignored_users; rw [if_pos hpre]
  constructor
  · simp [process_joined_room, fold_joined_state, emit_state_events,
      process_timeline, account_step, fold_account_data,
      receive_account_data_event, fold_ephemeral, fold_presence,
      EventJson.deserialize, hh]
  · intro x hx
    simp [process_joined_room, fold_joined_state, emit_state_events,
      process_timeline, account_step, fold_account_data,
      receive_account_data_event, fold_ephemeral, fold_presence,
      joined_room_write, EventJson.deserialize, hh] at hx
    obtain ⟨e2, rfl⟩ := mem_emit_account_data_event _ rid _ .Joined x hx
    rfl

/-- C4 (witness): with cached list `["@a:s"]`, an equal incoming list
reports no change, a different list replaces the cache, and the
one-event fold sets no `updated` flag. -/
theorem C4_witness :
    handle_ignored_users c4_client ["@a:s"] = (c4_client, false)
    ∧ handle_ignored_users c4_client ["@b:s"]
      = ({ c4_client with ignored_users := ["@b:s"] }, true)
    ∧ (process_joined_room TrivialRM TrivialCM c4_client false "!r:s"
        ⟨[], [], [], some [.ok (.ignored_user_list ["@a:s"])], 0, 0⟩
        []).updated = false :=
  ⟨(C4 TrivialRM TrivialCM c4_client ["@a:s"] "!r:s" 0 0).1 rfl,
   (C4 TrivialRM TrivialCM c4_client ["@b:s"] "!r:s" 0 0).2.1 (by decide),
   ((C4 TrivialRM TrivialCM c4_client ["@a:s"] "!r:s" 0 0).2.2 rfl).1⟩

/-- C5: `handle_push_rules` replaces the cached ruleset wholesale with
the event's global ruleset and reports `true`, even when the incoming
ruleset equals the cached one; `receive_account_data_event` routes an
`m.push_rules` event to exactly this behaviour. -/
theorem C5 (RM : RoomModel R) (c : BaseClient R O) (r : Ruleset)
    (rid : RoomId) :
    handle_push_rules c r = ({ c with push_ruleset := some r }, true)
    ∧ (c.push_ruleset = some r → (handle_push_rules c r).2 = true
        ∧ (handle_push_rules c r).1.push_ruleset = some r)
    ∧ receive_account_data_event RM c rid (.push_rules r)
        = ({ c with push_ruleset := some r }, true) :=
  ⟨rfl, fun _ => ⟨rfl, rfl⟩, rfl⟩

/-- C5 (witness): a client whose cached ruleset already equals the
incoming one still reports a change. -/
theorem C5_witness :
    (handle_push_rules c5_client ⟨3⟩).2 = true
    ∧ (handle_push_rules c5_client ⟨3⟩).1.push_ruleset = some ⟨3⟩ :=
  (C5 TrivialRM c5_client ⟨3⟩ "!r:s").2.1 rfl

/-- C6: an event that fails to deserialize is skipped everywhere in
the fold: the joined timeline receiver reports `(none, false)` leaving
the client untouched, every receive loop continues with the remaining
events as if the bad event were absent (only the raw timeline keeps
the unparsed blob in place), the emit re-loops produce no callback for
it, and the left-room timeline receiver reports no change. -/
theorem C6 (RM : RoomModel R) (CM : OlmModel O) (c : BaseClient R O)
    (rid : RoomId) (d : Nat) (u : Bool) (s : RoomStateType)
    (tl : List (EventJson RoomEvent)) (sts : List (EventJson StateEvent))
    (evs es : List (EventJson NonRoomEvent))
    (ps : List (EventJson PresenceEvent)) :
    receive_joined_timeline_event RM CM c rid (.bad d) = ⟨c, none, false⟩
    ∧ process_timeline RM CM c rid u (.bad d :: tl)
        = ⟨(process_timeline RM CM c rid u tl).client,
            .bad d :: (process_timeline RM CM c rid u tl).timeline,
            (process_timeline RM CM c rid u tl).updated,
            (process_timeline RM CM c rid u tl).effects⟩
    ∧ fold_joined_state RM c rid u (.bad d :: sts)
        = fold_joined_state RM c rid u sts
    ∧ fold_account_data RM c rid u (.bad d :: evs)
        = fold_account_data RM c rid u evs
    ∧ fold_presence RM c rid u (.bad d :: ps) = fold_presence RM c rid u ps
    ∧ fold_ephemeral RM c rid u (.bad d :: es) = fold_ephemeral RM c rid u es
    ∧ emit_state_events c rid s (.bad d :: sts)
        = emit_state_events c rid s sts
    ∧ receive_left_timeline_event RM c rid (.bad d) = (c, false) := by
  refine ⟨rfl, ?_, rfl, rfl, rfl, rfl, rfl, rfl⟩
  simp [process_timeline, receive_joined_timeline_event,
    EventJson.deserialize]

/-- C7 (counterexample): with a subscriber installed and an engine
that fails to decrypt, folding a joined room whose timeline holds one
`m.room.encrypted` event produces NO subscriber callback at all — the
timeline dispatcher has no arm for encrypted events — contradicting
the claim that the event "is still dispatched in its encrypted
form". -/
theorem C7_counterexample :
    c7_client.event_emitter = true
    ∧ c7_client.olm = some ()
    ∧ (TrivialCM.decrypt_room_event () "!r:s" 7).2 = none
    ∧ List.countP is_timeline_emit
        (receive_sync_response TrivialRM TrivialCM c7_client
          c7_resp).effects = 0
    ∧ (receive_sync_response TrivialRM TrivialCM c7_client c7_resp).effects
        = [] := by decide

/-- C7 (amended): when the engine decrypts an encrypted timeline event
the decrypted event replaces the envelope in the timeline and, when
the decrypted form deserializes to a callback-bearing variant and an
emitter is installed, the subscriber is dispatched with the decrypted
form; when decryption fails (or no engine is present) the event stays
in encrypted form in the timeline and no subscriber callback is
invoked for it, because the timeline dispatcher has no arm for
`m.room.encrypted`. -/
theorem C7_amended (RM : RoomModel R) (CM : OlmModel O) (c : BaseClient R O)
    (rid : RoomId) (d : Nat) (u : Bool) (o o2 : O)
    (ej2 : EventJson RoomEvent) (e2 : RoomEvent) :
    (c.olm = some o → CM.decrypt_room_event o rid d = (o2, some ej2) →
      (process_timeline RM CM c rid u [.ok (.room_encrypted d)]).timeline
        = [ej2])
    ∧ (c.olm = some o → CM.decrypt_room_event o rid d = (o2, some ej2) →
        ej2.deserialize = some e2 → timeline_has_callback e2 = true →
        c.event_emitter = true →
        Effect.emit (Emit.timeline rid e2 .Joined)
          ∈ (process_timeline RM CM c rid u
              [.ok (.room_encrypted d)]).effects)
    ∧ (c.olm = some o → CM.decrypt_room_event o rid d = (o2, none) →
        (process_timeline RM CM c rid u [.ok (.room_encrypted d)]).timeline
          = [.ok (.room_encrypted d)]
        ∧ (process_timeline RM CM c rid u
            [.ok (.room_encrypted d)]).effects = [])
    ∧ (c.olm = none →
        (process_timeline RM CM c rid u [.ok (.room_encrypted d)]).timeline
          = [.ok (.room_encrypted d)]
        ∧ (process_timeline RM CM c rid u
            [.ok (.room_encrypted d)]).effects = []) := by
  refine ⟨?_, ?_, ?_, ?_⟩
  · intro ho hd
    have htd : (receive_joined_timeline_event RM CM c rid
        (.ok (.room_encrypted d))).decrypted = some ej2 := by
      rw [decrypted_receive_joined_timeline RM CM c rid d o ho, hd]
    simp [process_timeline, htd]
  · intro ho hd hdes hcb hemit
    have htd : (receive_joined_timeline_event RM CM c rid
        (.ok (.room_encrypted d))).decrypted = some ej2 := by
      rw [decrypted_receive_joined_timeline RM CM c rid d o ho, hd]
    have he2 : (receive_joined_timeline_event RM CM c rid
        (.ok (.room_encrypted d))).client.event_emitter = true := by
      have h3 : (receive_joined_timeline_event RM CM c rid
          (.ok (.room_encrypted d))).client.event_emitter
          = c.event_emitter :=
        congrArg Ctl.event_emitter
          (ctl_receive_joined_timeline_event RM CM c rid
            (.ok (.room_encrypted d)))
      rw [h3]; exact hemit
    have hm2 := joined_isSome_receive_joined_timeline_ok RM CM c rid
      (.room_encrypted d)
    simp [process_timeline, htd, hdes,
      emit_timeline_event_eq _ rid e2 he2 hm2 hcb]
  · intro ho hd
    have htd : (receive_joined_timeline_event RM CM c rid
        (.ok (.room_encrypted d))).decrypted = none := by
      rw [decrypted_receive_joined_timeline RM CM c rid d o ho, hd]
    constructor
    · simp [process_timeline, htd]
    · simp [process_timeline, htd, EventJson.deserialize,
        emit_timeline_event_no_callback
          (receive_joined_timeline_event RM CM c rid
            (.ok (.room_encrypted d))).client rid
          (RoomEvent.room_encrypted d) RoomStateType.Joined rfl]
  · intro ho
    have htd : (receive_joined_timeline_event RM CM c rid
        (.ok (.room_encrypted d))).decrypted = none :=
      decrypted_receive_joined_timeline_none RM CM c rid d ho
    constructor
    · simp [process_timeline, htd]
    · simp [process_timeline, htd, EventJson.deserialize,
        emit_timeline_event_no_callback
          (receive_joined_timeline_event RM CM c rid
            (.ok (.room_encrypted d))).client rid
          (RoomEvent.room_encrypted d) RoomStateType.Joined rfl]

/-- C7 (witness): an engine that decrypts payload `7` to an
`m.room.message` makes the decrypted message replace the envelope and
reach the subscriber. -/
theorem C7_witness :
    (process_timeline TrivialRM DecryptCM c7_client "!r:s" false
      [.ok (.room_encrypted 7)]).timeline = [.ok (.room_message 7)]
    ∧ Effect.emit (Emit.timeline "!r:s" (.room_message 7) .Joined)
      ∈ (process_timeline TrivialRM DecryptCM c7_client "!r:s" false
        [.ok (.room_encrypted 7)]).effects :=
  ⟨(C7_amended TrivialRM DecryptCM c7_client "!r:s" 7 false () ()
      (.ok (.room_message 7)) (.room_message 7)).1 rfl rfl,
   (C7_amended TrivialRM DecryptCM c7_client "!r:s" 7 false () ()
      (.ok (.room_message 7)) (.room_message 7)).2.1 rfl rfl rfl rfl rfl⟩

/-- C8 (counterexample): a client with a configured store that yields
client state for every session, but with no session installed, makes
`sync_with_state_store` return `false` without loading anything — the
claim's "otherwise … returns true" omits the session requirement. -/
theorem C8_counterexample :
    c8_client.state_store.isSome = true
    ∧ (stLoaded.load_client_state sess0).isSome = true
    ∧ c8_client.session = none
    ∧ (sync_with_state_store c8_client).2 = false := by decide

/-- C8 (amended): `sync_with_state_store` returns `false` when no
store is configured or no session is present (given the needs-sync
flag, initially `true`, has not been cleared); returns `false` leaving
the client untouched when the store yields no client state for the
session; and otherwise loads the client state, replaces the three
buckets with the store's rooms, clears the needs-sync flag and returns
`true`. -/
theorem C8_amended (c : BaseClient R O) :
    (c.state_store = none → c.needs_state_store_sync = true →
        sync_with_state_store c = (c, false))
    ∧ (∀ st, c.state_store = some st → c.session = none →
        c.needs_state_store_sync = true →
        sync_with_state_store c = (c, false))
    ∧ (∀ st s, c.state_store = some st → c.session = some s →
        st.load_client_state s = none → sync_with_state_store c = (c, false))
    ∧ (∀ st s cs, c.state_store = some st → c.session = some s →
        st.load_client_state s = some cs →
        sync_with_state_store c =
          ({ c with sync_token := cs.sync_token,
                    ignored_users := cs.ignored_users,
                    push_ruleset := cs.push_ruleset,
                    joined_rooms := st.load_all_rooms.joined,
                    invited_rooms := st.load_all_rooms.invited,
                    left_rooms := st.load_all_rooms.left,
                    needs_state_store_sync := false }, true)) := by
  refine ⟨?_, ?_, ?_, ?_⟩ <;> intros <;> simp_all [sync_with_state_store]

/-- C8 (witness): with a session and a store that yields client state,
the load succeeds, fills the buckets from the store and returns
`true`. -/
theorem C8_witness :
    sync_with_state_store c8w_client
      = ({ c8w_client with
            sync_token := some "tok",
            ignored_users := ["@i:s"], push_ruleset := some ⟨1⟩,
            joined_rooms := [("!j:s", ())], invited_rooms := [],
            left_rooms := [], needs_state_store_sync := false }, true) :=
  (C8_amended c8w_client).2.2.2 stLoaded sess0
    ⟨some "tok", ["@i:s"], some ⟨1⟩⟩ rfl rfl rfl

/-- C9: within one joined-rooms fold every top-level presence event is
applied and emitted once per joined room: the per-room presence loop
applies `receive_presence_event` then emits exactly once per parseable
event, with an emitter installed the fold over N joined rooms emits
each presence event exactly once for each of the N rooms (in room
order), and when `rooms.join` is empty the joined fold is a complete
no-op — no application, no emission, no effect. -/
theorem C9 (RM : RoomModel R) (CM : OlmModel O) (c : BaseClient R O)
    (resp : SyncResponse) (rid : RoomId) (u : Bool) (p : PresenceEvent)
    (ps : List (EventJson PresenceEvent)) (sm un : Nat)
    (rids : List RoomId) (t : Token) :
    (resp.rooms.join = [] →
      iter_joined_rooms RM CM c resp = ⟨c, resp, false, []⟩)
    ∧ (fold_presence RM c rid u (.ok p :: ps)
        = ⟨(fold_presence RM (receive_presence_event RM c rid p).1 rid
              (u || (receive_presence_event RM c rid p).2) ps).client,
            (fold_presence RM (receive_presence_event RM c rid p).1 rid
              (u || (receive_presence_event RM c rid p).2) ps).updated,
            emit_presence_event (receive_presence_event RM c rid p).1 rid p
              .Joined
            ++ (fold_presence RM (receive_presence_event RM c rid p).1 rid
              (u || (receive_presence_event RM c rid p).2) ps).effects⟩)
    ∧ (c.event_emitter = true →
        List.filter is_presence_emit
          (iter_joined_rooms RM CM c
            ⟨t, ⟨rids.map (fun r2 =>
                (r2, (⟨[], [], [], none, sm, un⟩ : JoinedRoomData))),
              [], []⟩, [.ok p]⟩).effects
          = rids.map (fun r2 =>
              Effect.emit (Emit.presence r2 p .Joined))) := by
  refine ⟨?_, rfl, ?_⟩
  · intro h
    obtain ⟨nb, rms, pres2⟩ := resp
    obtain ⟨jn, iv2, lv⟩ := rms
    have h2 : jn = [] := h
    subst h2
    rfl
  · intro he
    exact filter_presence_iter_joined_aux RM CM c false sm un p rids he

/-- C9 (witness): with an emitter installed, two joined rooms in the
response and one presence event, exactly two presence callbacks fire,
one per room. -/
theorem C9_witness :
    List.filter is_presence_emit
      (iter_joined_rooms TrivialRM TrivialCM c9_client
        ⟨"t1", ⟨[("!a:s", emptyJR), ("!b:s", emptyJR)], [], []⟩,
          [.ok ⟨5⟩]⟩).effects
      = [Effect.emit (Emit.presence "!a:s" ⟨5⟩ .Joined),
         Effect.emit (Emit.presence "!b:s" ⟨5⟩ .Joined)] :=
  (C9 TrivialRM TrivialCM c9_client
    ⟨"t1", ⟨[], [], []⟩, []⟩ "!r:s" false ⟨5⟩ [] 0 0
    ["!a:s", "!b:s"] "t1").2.2 rfl

/-- C10: the `updated` flag of the joined fold is a single accumulator
shared by all rooms: it is monotone (once true, still true after any
further room), any room processed while it is true gets a
`store_room_state` write when a store is configured (even a room whose
own events changed nothing), a room leaving the flag false produces no
store write at all, and in a fold over `xs ++ ys` in which the prefix
`xs` has set the flag every room of `ys` receives a write. -/
theorem C10 (RM : RoomModel R) (CM : OlmModel O) (c : BaseClient R O)
    (u : Bool) (rid : RoomId) (jr : JoinedRoomData)
    (pres : List (EventJson PresenceEvent))
    (xs ys : List (RoomId × JoinedRoomData)) :
    (u = true → (process_joined_room RM CM c u rid jr pres).updated = true)
    ∧ (u = true → c.state_store.isSome = true →
        ∃ r, Effect.write (StoreWrite.room_state .Joined rid r)
          ∈ (process_joined_room RM CM c u rid jr pres).effects)
    ∧ ((process_joined_room RM CM c u rid jr pres).updated = false →
        ∀ x ∈ (process_joined_room RM CM c u rid jr pres).effects,
          is_store_write x = false)
    ∧ (c.state_store.isSome = true →
        (iter_joined_rooms_aux RM CM c u pres xs).updated = true →
        ∀ rid2 jr2, (rid2, jr2) ∈ ys →
        ∃ r, Effect.write (StoreWrite.room_state .Joined rid2 r)
          ∈ (iter_joined_rooms_aux RM CM c u pres (xs ++ ys)).effects) :=
  ⟨fun h => process_joined_room_updated_of RM CM c u rid jr pres h,
   fun h hs => write_mem_process_joined_room RM CM c u rid jr pres h hs,
   no_store_write_process_joined_room RM CM c u rid jr pres,
   fun hs hu rid2 jr2 hmem =>
     write_mem_iter_joined_xs_ys RM CM c u pres xs ys rid2 jr2 hs hu hmem⟩

/-- C10 (witness): with a store configured, after a first room whose
state event changes it, a second room with no events at all still gets
a `store_room_state` write. -/
theorem C10_witness :
    ∃ r, Effect.write (StoreWrite.room_state .Joined "!b:s" r)
      ∈ (iter_joined_rooms_aux ChangeRM TrivialCM c10_client false []
          ([("!a:s", c10_jr1)] ++ [("!b:s", emptyJR)])).effects :=
  (C10 ChangeRM TrivialCM c10_client false "!x:s" emptyJR []
    [("!a:s", c10_jr1)] [("!b:s", emptyJR)]).2.2.2
    rfl (by decide) "!b:s" emptyJR (by decide)

end Claims

end MatrixSdkBase
